import Mathlib

/-!
# Gateway configuration synchronizer (`gateway/controller/openresty/template`)

A shallow embedding of `templete_manage.go`: the file tree is an explicit state, every
operating-system call and every run of the external validator is a step on that state whose
answer may also be dictated by the environment, and the Go functions are translated
statement by statement over these steps.
-/

namespace Rainbond

/-! ## Values -/

/-- Go `[]byte`. -/
abbrev Bytes := List UInt8

/-- The package-level error variables the code compares against with `==`. -/
inductive Sentinel where
  | plain
  | ErrNotExist
  | ErrorCheck
  deriving DecidableEq, Repr

/-- A Go `error` value, reduced to what the code observes of it: whether it is one of the
package-level variables, its `Error()` text, and whether the underlying system error is
"file does not exist". -/
structure Error where
  ident : Sentinel
  text : String
  enoent : Bool
  deriving DecidableEq, Repr

/-- The variable `os.ErrNotExist`. -/
def os.ErrNotExist : Error := ⟨.ErrNotExist, "file does not exist", true⟩

/-- The variable `nginxcmd.ErrorCheck`. -/
def nginxcmd.ErrorCheck : Error := ⟨.ErrorCheck, "error check config", false⟩

/-- The comparison `err == v` with a package-level error variable `v`. -/
def Error.isVar (err : Error) (v : Sentinel) : Bool :=
  err.ident == v

/-- Go `os.IsNotExist(err)`. -/
def os.IsNotExist (err : Error) : Bool :=
  err.ident == .ErrNotExist || err.enoent

/-- Go `fmt.Errorf`, applied to an already formatted message. -/
def fmt.Errorf (msg : String) : Error := ⟨.plain, msg, false⟩

/-- Go `strings.Contains(s, substr)`. -/
def strings.Contains (s substr : String) : Bool :=
  s.data.tails.any (fun t => substr.data.isPrefixOf t)

/-! ## Paths (Go package `path`) -/

/-- Split at every `/`; the pieces of `"/a//b"` are `""`, `"a"`, `""`, `"b"`. -/
def path.splitSlash : List Char → List (List Char)
  | [] => [[]]
  | c :: cs =>
    if c = '/' then [] :: path.splitSlash cs
    else
      match path.splitSlash cs with
      | [] => [[c]]
      | h :: t => (c :: h) :: t

/-- One element of `Clean`: the output so far is a stack of names, last name first. Empty
elements and `.` are dropped, `..` removes the name before it, is dropped at the root of a
rooted path, and is kept at the start of a relative one. -/
def path.cleanStep (rooted : Bool) (stack : List (List Char)) (c : List Char) :
    List (List Char) :=
  if c = [] ∨ c = ['.'] then stack
  else if c = ['.', '.'] then
    match stack with
    | [] => if rooted then [] else [c]
    | top :: rest => if top = ['.', '.'] then c :: stack else rest
  else c :: stack

/-- Join names with `/`. -/
def path.slashJoin : List (List Char) → List Char
  | [] => []
  | [x] => x
  | x :: y :: rest => x ++ '/' :: path.slashJoin (y :: rest)

/-- Go `path.Clean`: the shortest path name equivalent to the argument. -/
def path.Clean (p : String) : String :=
  let rooted : Bool := p.data.head? == some '/'
  let stack := (path.splitSlash p.data).foldl (path.cleanStep rooted) []
  let body := path.slashJoin stack.reverse
  if rooted then ⟨'/' :: body⟩ else if body = [] then "." else ⟨body⟩

/-- Go `strings.Join(elems, "/")`. -/
def path.joinSlash : List String → String
  | [] => ""
  | [x] => x
  | x :: y :: rest => x ++ "/" ++ path.joinSlash (y :: rest)

/-- Go `path.Join`: leading empty elements are ignored, the rest is joined with `/` and cleaned;
the result is empty when every element is. -/
def path.Join (elem : List String) : String :=
  match elem.dropWhile (fun e => e == "") with
  | [] => ""
  | es => path.Clean (path.joinSlash es)

/-- The text up to and including the last `/`. -/
def path.dirPart : List Char → List Char
  | [] => []
  | c :: cs =>
    if '/' ∈ c :: cs then c :: path.dirPart cs else []

/-- Go `path.Dir`: everything up to the last `/`, cleaned. -/
def path.Dir (p : String) : String :=
  path.Clean ⟨path.dirPart p.data⟩

/-- A single path element that `Clean` keeps: not empty, no `/`, neither `.` nor `..`. -/
def path.PlainName (name : String) : Prop :=
  name.data ≠ [] ∧ '/' ∉ name.data ∧ name.data ≠ ['.'] ∧ name.data ≠ ['.', '.']

instance (name : String) : Decidable (path.PlainName name) := by
  unfold path.PlainName; infer_instance

/-! ## The file tree and the environment -/

/-- The configuration tree: every regular file with its content. Directories are implicit, a
directory being the set of paths below it. Paths are the strings the program builds, all of
them produced by `path.Join` (with a `.bak` suffix for backups). -/
abbrev FS := String → Option Bytes

/-- Replace what is stored at one path. -/
def FS.set (fs : FS) (name : String) (v : Option Bytes) : FS :=
  fun p => if p = name then v else fs p

/-- Whether `p` is `root` itself or lies below it. -/
def FS.under (root p : String) : Bool :=
  p == root ||
    (if root.data.getLast? == some '/' then root.data else root.data ++ ['/']).isPrefixOf p.data

/-- Outcome of running an external command with a byte buffer as its standard input: how many
bytes of the buffer the command took, what it wrote to standard output, and the error of
`cmd.Run()`. -/
structure CmdResult where
  consumed : Nat
  stdout : Bytes
  err : Option Error

/-- The answers of everything outside the program during one run. The `k`-th
operating-system call of the run fails with `fault k` when that is an error (whatever the
tree holds); a `Write` that fails has written `short k` bytes; the `k`-th run of the
validator answers `verdict k`; `cleanCmd` is the normalization script. Indexing by position
in the run loses nothing: the run is deterministic, so an answer that depends on the tree is
an answer that depends on the position. -/
structure Env where
  fault : Nat → Option Error
  short : Nat → Nat
  verdict : Nat → Option Error
  cleanCmd : Bytes → CmdResult

/-- The state a run threads through: the tree, and how many operating-system calls and
validator runs have been made. -/
structure World where
  fs : FS
  ops : Nat
  checks : Nat

/-- The error of a call on a path that does not exist (`ENOENT`). -/
def os.enoent (op name : String) : Error :=
  ⟨.plain, op ++ " " ++ name ++ ": no such file or directory", true⟩

/-- Go `ioutil.ReadFile(filename)`: the pair `(content, err)`; the content is non-nil exactly
when the read succeeded. -/
def ioutil.ReadFile (env : Env) (filename : String) (w : World) :
    (Option Bytes × Option Error) × World :=
  let w1 : World := { w with ops := w.ops + 1 }
  match env.fault w.ops with
  | some err => ((none, some err), w1)
  | none =>
    match w.fs filename with
    | some body => ((some body, none), w1)
    | none => ((none, some (os.enoent "open" filename)), w1)

/-- Go `os.Rename(oldpath, newpath)`: replaces `newpath` if it exists. -/
def os.Rename (env : Env) (oldpath newpath : String) (w : World) : Option Error × World :=
  let w1 : World := { w with ops := w.ops + 1 }
  match env.fault w.ops with
  | some err => (some err, w1)
  | none =>
    match w.fs oldpath with
    | none => (some (os.enoent "rename" oldpath), w1)
    | some body => (none, { w1 with fs := (w.fs.set oldpath none).set newpath (some body) })

/-- Go `os.OpenFile(name, os.O_CREATE|os.O_APPEND|os.O_RDWR, 0755)`: creates the file when it is
missing and keeps its content when it is there. The handle is the path (unused when the call
fails), every write going to the end of the file. -/
def os.OpenFile (env : Env) (name : String) (w : World) :
    (String × Option Error) × World :=
  let w1 : World := { w with ops := w.ops + 1 }
  match env.fault w.ops with
  | some err => ((name, some err), w1)
  | none =>
    match w.fs name with
    | some _ => ((name, none), w1)
    | none => ((name, none), { w1 with fs := w.fs.set name (some []) })

/-- Go `cfile.Write(b)` on a handle opened for appending: `(n, err)` with `n` the number of
bytes added to the file. -/
def os.File.Write (env : Env) (cfile : String) (b : Bytes) (w : World) :
    (Nat × Option Error) × World :=
  let w1 : World := { w with ops := w.ops + 1 }
  let old : Bytes := (w.fs cfile).getD []
  match env.fault w.ops with
  | some err =>
    let n := min (env.short w.ops) b.length
    ((n, some err), { w1 with fs := w.fs.set cfile (some (old ++ b.take n)) })
  | none => ((b.length, none), { w1 with fs := w.fs.set cfile (some (old ++ b)) })

/-- Go `os.Remove(name)`. -/
def os.Remove (env : Env) (name : String) (w : World) : Option Error × World :=
  let w1 : World := { w with ops := w.ops + 1 }
  match env.fault w.ops with
  | some err => (some err, w1)
  | none =>
    match w.fs name with
    | none => (some (os.enoent "remove" name), w1)
    | some _ => (none, { w1 with fs := w.fs.set name none })

/-- Go `os.RemoveAll(path)`: removes the path and everything below it; a path that does not
exist is not an error. -/
def os.RemoveAll (env : Env) (root : String) (w : World) : Option Error × World :=
  let w1 : World := { w with ops := w.ops + 1 }
  match env.fault w.ops with
  | some err => (some err, w1)
  | none => (none, { w1 with fs := fun p => if FS.under root p then none else w.fs p })

/-- Modelled from the spec: `util.CheckAndCreateDir` is not among the sources. The spec has it
ensure that the directory exists, creating it recursively if missing, a failure being an I/O
error of the call. Directories being implicit in the tree, a successful call changes no file. -/
def util.CheckAndCreateDir (env : Env) (_dir : String) (w : World) : Option Error × World :=
  (env.fault w.ops, { w with ops := w.ops + 1 })

/-- Modelled from the spec: `nginxcmd.CheckConfig` is not among the sources. The spec has it run
the external validator once on the whole tree, with no effect on the tree: exit code zero is
`nil`, anything else an error. -/
def nginxcmd.CheckConfig (env : Env) (w : World) : Option Error × World :=
  (env.verdict w.checks, { w with checks := w.checks + 1 })

/-! ## Rendering -/

/-- A parsed template. `Execute conf` is `t.tmpl.Execute(tmplBuf, conf)`: what execution wrote
to the buffer and its error. The rendering grammar is outside the program. -/
structure Template (α : Type) where
  Execute : α → Bytes × Option Error

/-- Source `Template.Write`: execute the template, then pipe the text through the normalization
script. The script reads its input from `tmplBuf`, so after a failed run `tmplBuf.Bytes()` is
the part of the text the script did not take. A nil slice is the empty list. -/
def Template.Write {α : Type} (env : Env) (t : Template α) (conf : α) :
    Bytes × Option Error :=
  match t.Execute conf with
  | (_, some err) => ([], some err)
  | (tmplBuf, none) =>
    -- squeezes multiple adjacent empty lines to be single
    let r := env.cleanCmd tmplBuf
    match r.err with
    | some _ => (tmplBuf.drop r.consumed, none)
    | none => (r.stdout, none)

/-- Source `NginxServerContext`: nginx server config. -/
structure NginxServerContext (Config Server : Type) where
  Server : Server
  Set : Config

/-- Source `NginxUpstreamContext`: nginx upstream config. -/
structure NginxUpstreamContext (Config Upstream : Type) where
  Upstream : Upstream
  Set : Config

/-- Source `NginxConfigFileTemplete`: nginx config file manage. The lock table `writeLocks` is kept
apart, in `LockTable`: in a run of one operation at a time a lock is taken and released
around the body and changes nothing in the tree. -/
structure NginxConfigFileTemplete (Config Server Upstream Nginx : Type) where
  templeteFileDirPath : String
  configFileDirPath : String
  nginxTmpl : Template Nginx
  serverTmpl : Template (NginxServerContext Config Server)
  tcpUpstreamTmpl : Template (NginxUpstreamContext Config Upstream)

/-! ## The write protocol -/

/-- The condition under which a failed read of the old file ends the call (lines 195, 287). -/
def readIsFatal (err : Error) : Bool :=
  (!err.isVar .ErrNotExist && strings.Contains err.text "no such file or directory")
    && !os.IsNotExist err

/-- The two `Write` calls at the end of a commit (lines 225-228, 311-314): the body, and once
more what a short first write left; the result is the final `err`. -/
def writeBody (env : Env) (cfile : String) (configBody : Bytes) (w : World) :
    Option Error × World :=
  match os.File.Write env cfile configBody w with
  | ((c, err), w) =>
    if c < configBody.length then
      match os.File.Write env cfile (configBody.drop c) w with
      | ((_, err), w) => (err, w)
    else (err, w)

/-- Lines 293-337 of `writeFile`, after the old file has been read. -/
def writeFile.commit (env : Env) (first : Bool) (configBody : Bytes) (configFile : String)
    (oldBody : Option Bytes) (noOldConfig : Bool) (w : World) : Option Error × World :=
  let backup : Option Error × Bytes × World :=
    if !noOldConfig then
      match os.Rename env configFile (configFile ++ ".bak") w with
      | (some err, w) => (some err, configBody, w)
      | (none, w) =>
        -- write new body
        match oldBody with
        | some old => if !first then (none, old ++ configBody ++ [10], w) else (none, configBody, w)
        | none => (none, configBody, w)
    else (none, configBody, w)
  match backup with
  | (some err, _, w) => (some err, w)
  | (none, configBody, w) =>
    match os.OpenFile env configFile w with
    | ((_, some err), w) => (some err, w)
    | ((cfile, none), w) =>
      match writeBody env cfile configBody w with
      | (some err, w) => (some err, w)
      | (none, w) =>
        -- test
        match nginxcmd.CheckConfig env w with
        | (some err, w) =>
          -- rollback if error
          if !noOldConfig then
            (some err, (os.Rename env (configFile ++ ".bak") configFile w).2)
          else (some err, w)
        | (none, w) =>
          -- success
          if !noOldConfig then
            (none, (os.Remove env (configFile ++ ".bak") w).2)
          else (none, w)

/-- Source `NginxConfigFileTemplete.writeFile`: the full commit of one file. -/
def writeFile (env : Env) (first : Bool) (configBody : Bytes) (configFile : String)
    (w : World) : Option Error × World :=
  match util.CheckAndCreateDir env (path.Dir configFile) w with
  | (some err, w) =>
    (some (fmt.Errorf
      ("check or create dir " ++ path.Dir configFile ++ " failure " ++ err.text)), w)
  | (none, w) =>
    -- backup
    match ioutil.ReadFile env configFile w with
    | ((oldBody, some err), w) =>
      if readIsFatal err then (some err, w)
      else writeFile.commit env first configBody configFile oldBody true w
    | ((oldBody, none), w) =>
      writeFile.commit env first configBody configFile oldBody false w

/-- Lines 205-230 of `writeFileNotCheck`, after the old file has been read. -/
def writeFileNotCheck.write (env : Env) (first : Bool) (configBody : Bytes)
    (configFile : String) (oldBody : Option Bytes) (hasOldConfig : Bool) (w : World) :
    (Bool × Option Error) × World :=
  let backup : Option Error × Bytes × World :=
    if hasOldConfig then
      match os.Rename env configFile (configFile ++ ".bak") w with
      | (some err, w) => (some err, configBody, w)
      | (none, w) =>
        -- write new body
        match oldBody with
        | some old => if !first then (none, old ++ configBody ++ [10], w) else (none, configBody, w)
        | none => (none, configBody, w)
    else (none, configBody, w)
  match backup with
  | (some err, _, w) => ((false, some err), w)
  | (none, configBody, w) =>
    match os.OpenFile env configFile w with
    | ((_, some err), w) => ((hasOldConfig, some err), w)
    | ((cfile, none), w) =>
      match writeBody env cfile configBody w with
      | (err, w) => ((hasOldConfig, err), w)

/-- Source `NginxConfigFileTemplete.writeFileNotCheck`: backup and write of one file, without the
validator; reports whether an old version was there. -/
def writeFileNotCheck (env : Env) (first : Bool) (configBody : Bytes) (configFile : String)
    (w : World) : (Bool × Option Error) × World :=
  match util.CheckAndCreateDir env (path.Dir configFile) w with
  | (some err, w) =>
    ((false, some (fmt.Errorf
      ("check or create dir " ++ path.Dir configFile ++ " failure " ++ err.text))), w)
  | (none, w) =>
    -- backup
    match ioutil.ReadFile env configFile w with
    | ((oldBody, some err), w) =>
      if readIsFatal err then ((false, some err), w)
      else writeFileNotCheck.write env first configBody configFile oldBody false w
    | ((oldBody, none), w) =>
      writeFileNotCheck.write env first configBody configFile oldBody true w

/-! ## The public operations -/

section Operations

variable {Config Server Upstream Nginx : Type}

/-- Source `NewNginxTemplate`: new nginx main config. -/
def NewNginxTemplate (env : Env) (n : NginxConfigFileTemplete Config Server Upstream Nginx)
    (data : Nginx) (w : World) : Option Error × World :=
  match n.nginxTmpl.Write env data with
  | (_, some err) =>
    (some (fmt.Errorf ("create nginx config by templete failure " ++ err.text)), w)
  | (body, none) =>
    let nginxConfigFile := path.Join [n.configFileDirPath, "nginx.conf"]
    match writeFile env true body nginxConfigFile w with
    | (some err, w) =>
      if err.isVar .ErrorCheck then (some (fmt.Errorf "nginx config check error"), w)
      else (some err, w)
    | (none, w) => (none, w)

/-- Lines 136-184 of `WriteServerAndUpstream`, once both bodies are rendered: write the two
files, run the validator once, then put both backups back or remove them. -/
def WriteServerAndUpstream.commit (env : Env) (first : Bool) (serverBody upstreamBody : Bytes)
    (serverConfigFile upstreamConfigFile : String) (w : World) : Option Error × World :=
  match writeFileNotCheck env first upstreamBody upstreamConfigFile w with
  | ((hasOldUpstreamConfig, _), w) =>
    match writeFileNotCheck env first serverBody serverConfigFile w with
    | ((hasOldServerConfig, _), w) =>
      -- test
      match nginxcmd.CheckConfig env w with
      | (some err, w) =>
        -- rollback if error
        let w := if hasOldServerConfig then
          (os.Rename env (serverConfigFile ++ ".bak") serverConfigFile w).2 else w
        let w := if hasOldUpstreamConfig then
          (os.Rename env (upstreamConfigFile ++ ".bak") upstreamConfigFile w).2 else w
        (some err, w)
      | (none, w) =>
        let w := if hasOldServerConfig then
          (os.Remove env (serverConfigFile ++ ".bak") w).2 else w
        let w := if hasOldUpstreamConfig then
          (os.Remove env (upstreamConfigFile ++ ".bak") w).2 else w
        (none, w)

/-- Source `WriteServerAndUpstream`: one server and one upstream, written together and validated
once. -/
def WriteServerAndUpstream (env : Env) (n : NginxConfigFileTemplete Config Server Upstream Nginx)
    (first : Bool) (c : Config) (configType tenant : String) (server : Server)
    (upstream : Upstream) (w : World) : Option Error × World :=
  -- write a new file just only have one server and and upstream
  let tenant := if tenant = "" then "default" else tenant
  let configType := if configType = "" then "http" else configType
  let serverConfigFile := path.Join [n.configFileDirPath, configType, tenant, "servers.conf"]
  let upstreamConfigFile := path.Join [n.configFileDirPath, "stream", tenant, "upstreams.conf"]
  match n.serverTmpl.Write env ⟨server, c⟩ with
  | (_, some _) => (none, w)
  | (serverBody, none) =>
    match n.tcpUpstreamTmpl.Write env ⟨upstream, c⟩ with
    | (_, some _) => (none, w)
    | (upstreamBody, none) =>
      WriteServerAndUpstream.commit env first serverBody upstreamBody
        serverConfigFile upstreamConfigFile w

/-- The `for` loop of `WriteServer` (lines 253-276), with the loop variable `first`. -/
def WriteServer.loop (env : Env) (n : NginxConfigFileTemplete Config Server Upstream Nginx)
    (c : Config) (serverConfigFile : String) : Bool → List Server → World → World
  | _, [], w => w
  | first, server :: rest, w =>
    match n.serverTmpl.Write env ⟨server, c⟩ with
    | (_, some _) => WriteServer.loop env n c serverConfigFile first rest w
    | (body, none) =>
      match writeFile env first body serverConfigFile w with
      | (some _, w) => WriteServer.loop env n c serverConfigFile first rest w
      | (none, w) => WriteServer.loop env n c serverConfigFile false rest w

/-- Source `WriteServer`: write server config. -/
def WriteServer (env : Env) (n : NginxConfigFileTemplete Config Server Upstream Nginx)
    (c : Config) (configtype tenant : String) (servers : List Server) (w : World) :
    Option Error × World :=
  let tenant := if tenant = "" then "default" else tenant
  let configtype := if configtype = "" then "http" else configtype
  let filename := tenant ++ "_servers.conf"
  let serverConfigFile := path.Join [n.configFileDirPath, configtype, tenant, filename]
  let first := true
  if servers.length < 1 then
    writeFile env first [] serverConfigFile w
  else
    (none, WriteServer.loop env n c serverConfigFile first servers w)

/-- Source `ClearByTenant`: clear tenant config. -/
def ClearByTenant (env : Env) (n : NginxConfigFileTemplete Config Server Upstream Nginx)
    (tenant : String) (w : World) : Option Error × World :=
  let tenantConfigFile := path.Join [n.configFileDirPath, "http", tenant]
  match os.RemoveAll env tenantConfigFile w with
  | (some err, w) => (some err, w)
  | (none, w) =>
    let tenantStreamConfigFile := path.Join [n.configFileDirPath, "stream", tenant]
    os.RemoveAll env tenantStreamConfigFile w

/-- The `for` loop of `WriteUpstream` (lines 362-373), with the buffer `allBody`. -/
def WriteUpstream.loop (env : Env) (n : NginxConfigFileTemplete Config Server Upstream Nginx)
    (set : Config) : List Upstream → Bytes → Bytes
  | [], allBody => allBody
  | upstream :: rest, allBody =>
    match n.tcpUpstreamTmpl.Write env ⟨upstream, set⟩ with
    | (_, some _) => WriteUpstream.loop env n set rest allBody
    | (body, none) => WriteUpstream.loop env n set rest (allBody ++ body ++ [10])

/-- Source `WriteUpstream`: write upstream config. -/
def WriteUpstream (env : Env) (n : NginxConfigFileTemplete Config Server Upstream Nginx)
    (set : Config) (tenant : String) (upstrems : List Upstream) (w : World) :
    Option Error × World :=
  let tenant := if tenant = "" then "default" else tenant
  let upstreamConfigFile := path.Join [n.configFileDirPath, "stream", tenant, "upstreams.conf"]
  let allBody := WriteUpstream.loop env n set upstrems []
  match writeFile env true allBody upstreamConfigFile w with
  | (_, w) => (none, w)

end Operations

/-! ## The operations with their locks -/

/-- A call of `Lock` or `Unlock` on the mutex at an address, with the number of
operating-system calls the run had made when it happened. -/
inductive LockEvent where
  | Lock (mutex ops : Nat)
  | Unlock (mutex ops : Nat)
  deriving DecidableEq, Repr

/-- The field `writeLocks` and the mutexes it points to: the address stored for each tenant,
whether the mutex at an address is held, the next free address, and the lock calls made so
far, oldest first. -/
structure LockTable where
  writeLocks : String → Option Nat
  locked : Nat → Bool
  next : Nat
  events : List LockEvent

/-- The lock lines of a publish operation (119-122, 241-244, 355-358): create the mutex of the
tenant if the table has none, then lock the mutex the table holds. The result is the mutex
locked, or nothing when the call does not return (the mutex is held already). -/
def LockTable.Lock (l : LockTable) (tenant : String) (ops : Nat) : Option (Nat × LockTable) :=
  let l1 : LockTable :=
    match l.writeLocks tenant with
    | some _ => l
    | none =>
      { l with
        writeLocks := fun t => if t = tenant then some l.next else l.writeLocks t
        locked := fun a => if a = l.next then false else l.locked a
        next := l.next + 1 }
  match l1.writeLocks tenant with
  | none => none
  | some m =>
    if l1.locked m then none
    else some (m, { l1 with
      locked := fun a => if a = m then true else l1.locked a
      events := l1.events ++ [.Lock m ops] })

/-- The deferred `Unlock` (lines 123, 245, 359) on the mutex that was locked. -/
def LockTable.Unlock (l : LockTable) (m : Nat) (ops : Nat) : LockTable :=
  { l with
    locked := fun a => if a = m then false else l.locked a
    events := l.events ++ [.Unlock m ops] }

/-- A body run between the lock lines and the deferred unlock. -/
def LockTable.during (l : LockTable) (tenant : String) (w : World)
    (body : World → Option Error × World) : Option ((Option Error × World) × LockTable) :=
  match l.Lock tenant w.ops with
  | none => none
  | some (m, l) =>
    let r := body w
    some (r, l.Unlock m r.2.ops)

section LockedOperations

variable {Config Server Upstream Nginx : Type}

/-- Source `WriteServerAndUpstream`, lock lines included. -/
def Locked.WriteServerAndUpstream (env : Env)
    (n : NginxConfigFileTemplete Config Server Upstream Nginx) (l : LockTable) (first : Bool)
    (c : Config) (configType tenant : String) (server : Server) (upstream : Upstream)
    (w : World) : Option ((Option Error × World) × LockTable) :=
  l.during (if tenant = "" then "default" else tenant) w
    (Rainbond.WriteServerAndUpstream env n first c configType tenant server upstream)

/-- Source `WriteServer`, lock lines included. -/
def Locked.WriteServer (env : Env) (n : NginxConfigFileTemplete Config Server Upstream Nginx)
    (l : LockTable) (c : Config) (configtype tenant : String) (servers : List Server)
    (w : World) : Option ((Option Error × World) × LockTable) :=
  l.during (if tenant = "" then "default" else tenant) w
    (Rainbond.WriteServer env n c configtype tenant servers)

/-- Source `WriteUpstream`, lock lines included. -/
def Locked.WriteUpstream (env : Env) (n : NginxConfigFileTemplete Config Server Upstream Nginx)
    (l : LockTable) (set : Config) (tenant : String) (upstrems : List Upstream) (w : World) :
    Option ((Option Error × World) × LockTable) :=
  l.during (if tenant = "" then "default" else tenant) w
    (Rainbond.WriteUpstream env n set tenant upstrems)

/-- Source `ClearByTenant`, which has no lock line: the table is not read and no mutex is
locked. -/
def Locked.ClearByTenant (env : Env) (n : NginxConfigFileTemplete Config Server Upstream Nginx)
    (l : LockTable) (tenant : String) (w : World) :
    Option ((Option Error × World) × LockTable) :=
  some (Rainbond.ClearByTenant env n tenant w, l)

end LockedOperations

/-! ## Vocabulary of the statements -/

/-- The content a commit writes, as lines 300-303 compute it from the old content read (none
when there is no old file), the flag `first` and the new body. -/
def written (old : Option Bytes) (first : Bool) (body : Bytes) : Bytes :=
  match old with
  | some P => if first then body else P ++ body ++ [10]
  | none => body

/-- A sequence of full commits on one file, each with its flag `first` and its body. -/
def writeFileSeq (env : Env) (file : String) : List (Bool × Bytes) → World → World
  | [], w => w
  | (first, body) :: rest, w => writeFileSeq env file rest (writeFile env first body file w).2

/-- The bodies of the pools that render, in input order. -/
def renderedPools {Config Server Upstream Nginx : Type} (env : Env)
    (n : NginxConfigFileTemplete Config Server Upstream Nginx) (set : Config) :
    List Upstream → List Bytes
  | [] => []
  | upstream :: rest =>
    match n.tcpUpstreamTmpl.Write env ⟨upstream, set⟩ with
    | (_, some _) => renderedPools env n set rest
    | (body, none) => body :: renderedPools env n set rest

/-- Every body followed by a newline, one after the other. -/
def newlineEach : List Bytes → Bytes
  | [] => []
  | body :: rest => body ++ [10] ++ newlineEach rest

/-- The calls of `writeFile` that the loop of `WriteServer` (lines 253-276) makes, in order:
for each call the flag `first` it is made with, its body, and the error it returns. The
function is `WriteServer.loop` with the arguments and the result of line 262 recorded. -/
def WriteServer.calls {Config Server Upstream Nginx : Type} (env : Env)
    (n : NginxConfigFileTemplete Config Server Upstream Nginx) (c : Config)
    (serverConfigFile : String) :
    Bool → List Server → World → List (Bool × Bytes × Option Error)
  | _, [], _ => []
  | first, server :: rest, w =>
    match n.serverTmpl.Write env ⟨server, c⟩ with
    | (_, some _) => WriteServer.calls env n c serverConfigFile first rest w
    | (body, none) =>
      match writeFile env first body serverConfigFile w with
      | (some err, w) =>
        (first, body, some err) :: WriteServer.calls env n c serverConfigFile first rest w
      | (none, w) =>
        (first, body, none) :: WriteServer.calls env n c serverConfigFile false rest w

/-- The bodies of the servers that render, in input order. -/
def renderedServers {Config Server Upstream Nginx : Type} (env : Env)
    (n : NginxConfigFileTemplete Config Server Upstream Nginx) (c : Config) :
    List Server → List Bytes
  | [] => []
  | server :: rest =>
    match n.serverTmpl.Write env ⟨server, c⟩ with
    | (_, some _) => renderedServers env n c rest
    | (body, none) => body :: renderedServers env n c rest

/-! ## Concrete environments and trees -/

/-- The normalization script when it works: it takes all its input and returns it. -/
def Example.cat (b : Bytes) : CmdResult := ⟨b.length, b, none⟩

/-- No operation fails and the validator accepts every tree. -/
def Example.accepting : Env := ⟨fun _ => none, fun _ => 0, fun _ => none, Example.cat⟩

/-- No operation fails and the validator rejects every tree. -/
def Example.rejecting : Env :=
  ⟨fun _ => none, fun _ => 0, fun _ => some nginxcmd.ErrorCheck, Example.cat⟩

/-- No operation fails and the validator rejects on its run number `k` only. -/
def Example.rejectingAt (k : Nat) : Env :=
  ⟨fun _ => none, fun _ => 0, fun j => if j = k then some nginxcmd.ErrorCheck else none,
    Example.cat⟩

/-- The validator accepts, and the operating-system call number `k` fails. -/
def Example.failingAt (k : Nat) : Env :=
  ⟨fun j => if j = k then some (Error.mk .plain "permission denied" false) else none,
    fun _ => 0, fun _ => none, Example.cat⟩

/-- The validator rejects every tree, and the operating-system call number `k` fails. -/
def Example.rejectingFailingAt (k : Nat) : Env :=
  ⟨fun j => if j = k then some (Error.mk .plain "permission denied" false) else none,
    fun _ => 0, fun _ => some nginxcmd.ErrorCheck, Example.cat⟩

/-- The validator accepts, and every operating-system call from number `k` on fails. -/
def Example.failingFrom (k : Nat) : Env :=
  ⟨fun j => if k ≤ j then some (Error.mk .plain "is a directory" false) else none,
    fun _ => 0, fun _ => none, Example.cat⟩

/-- A template that renders a byte string to itself and fails on the empty one. -/
def Example.echo {α : Type} (get : α → Bytes) : Template α :=
  ⟨fun conf => if get conf = [] then ([], some (fmt.Errorf "template: empty input"))
    else (get conf, none)⟩

/-- A synchronizer on the default directory whose servers and upstreams are byte strings
rendered to themselves. -/
def Example.manager : NginxConfigFileTemplete Unit Bytes Bytes Bytes :=
  ⟨"/run/nginxtmp/tmpl", "/run/nginx/conf", Example.echo id,
    Example.echo NginxServerContext.Server, Example.echo NginxUpstreamContext.Upstream⟩

/-- A tree holding nothing. -/
def Example.empty : World := ⟨fun _ => none, 0, 0⟩

/-- A tree holding one file. -/
def Example.one (name : String) (content : Bytes) : World :=
  ⟨fun p => if p = name then some content else none, 0, 0⟩

/-- The normalization script when it reads all its input and then exits with a non-zero
status. -/
def Example.exitOne (b : Bytes) : CmdResult := ⟨b.length, [], some (fmt.Errorf "exit status 1")⟩

/-- The normalization script when it cannot be started: nothing is read. -/
def Example.notFound (_b : Bytes) : CmdResult :=
  ⟨0, [], some (fmt.Errorf "fork/exec /run/ingress-controller/clean-nginx-conf.sh: no such file or directory")⟩

/-- No operation fails, the validator accepts, and the normalization script answers `cmd`. -/
def Example.filtering (cmd : Bytes → CmdResult) : Env :=
  ⟨fun _ => none, fun _ => 0, fun _ => none, cmd⟩

/-- A tree holding two files. -/
def Example.two (name1 : String) (content1 : Bytes) (name2 : String) (content2 : Bytes) :
    World :=
  ⟨fun p => if p = name1 then some content1 else if p = name2 then some content2 else none,
    0, 0⟩

/-- A lock table with no entry and no lock call made. -/
def Example.noLocks : LockTable := ⟨fun _ => none, fun _ => false, 0, []⟩

/-- No path of the tree is a backup name. -/
def NoBackup (fs : FS) : Prop :=
  ∀ p : String, fs (p ++ ".bak") = none

/-! # Theorems -/

/-! ## Paths: what a joined path ends with -/

theorem path.splitSlash_ne_nil (l : List Char) : path.splitSlash l ≠ [] := by
  induction l with
  | nil => simp [path.splitSlash]
  | cons c cs ih =>
    unfold path.splitSlash
    split
    · simp
    · split <;> simp

theorem path.splitSlash_plain (l : List Char) (h : '/' ∉ l) : path.splitSlash l = [l] := by
  induction l with
  | nil => simp [path.splitSlash]
  | cons c cs ih =>
    simp only [List.mem_cons, not_or] at h
    have hc : c ≠ '/' := fun e => h.1 e.symm
    simp [path.splitSlash, hc, ih h.2]

theorem path.splitSlash_append (a b : List Char) :
    path.splitSlash (a ++ '/' :: b) = path.splitSlash a ++ path.splitSlash b := by
  induction a with
  | nil => simp [path.splitSlash]
  | cons c cs ih =>
    by_cases hc : c = '/'
    · simp [path.splitSlash, hc, ih]
    · simp only [List.cons_append, path.splitSlash, hc, if_false, ih]
      cases hs : path.splitSlash cs with
      | nil => exact absurd hs (path.splitSlash_ne_nil cs)
      | cons h t => simp [ih, hs]

theorem path.slashJoin_snoc (l : List (List Char)) (nm : List Char) :
    ∃ pre, path.slashJoin (l ++ [nm]) = pre ++ nm := by
  induction l with
  | nil => exact ⟨[], by simp [path.slashJoin]⟩
  | cons x xs ih =>
    obtain ⟨pre, hpre⟩ := ih
    cases xs with
    | nil => exact ⟨x ++ ['/'], by simp [path.slashJoin]⟩
    | cons y ys =>
      refine ⟨x ++ '/' :: pre, ?_⟩
      simp only [List.cons_append, path.slashJoin] at hpre ⊢
      simp [hpre]

theorem path.Clean_snoc (p : String) (cs : List (List Char)) (name : String)
    (hname : path.PlainName name) (hsplit : path.splitSlash p.data = cs ++ [name.data]) :
    ∃ pre : String, path.Clean p = pre ++ name := by
  obtain ⟨h0, _, h1, h2⟩ := hname
  unfold path.Clean
  simp only [hsplit, List.foldl_append, List.foldl_cons, List.foldl_nil]
  have hstep : ∀ r st, path.cleanStep r st name.data = name.data :: st := by
    intro r st; simp [path.cleanStep, h0, h1, h2]
  simp only [hstep, List.reverse_cons]
  obtain ⟨pre, hpre⟩ := path.slashJoin_snoc
    (List.foldl (path.cleanStep (p.data.head? == some '/')) [] cs).reverse name.data
  rw [hpre]
  split
  · exact ⟨⟨'/' :: pre⟩, by apply String.ext; simp⟩
  · have : pre ++ name.data ≠ [] := by simp [h0]
    rw [if_neg this]
    exact ⟨⟨pre⟩, by apply String.ext; simp⟩

theorem path.joinSlash_snoc (ys : List String) (name : String) (hname : '/' ∉ name.data) :
    ∃ cs, path.splitSlash (path.joinSlash (ys ++ [name])).data = cs ++ [name.data] := by
  induction ys with
  | nil => exact ⟨[], by simp [path.joinSlash, path.splitSlash_plain _ hname]⟩
  | cons y ys ih =>
    obtain ⟨cs, hcs⟩ := ih
    refine ⟨path.splitSlash y.data ++ cs, ?_⟩
    have hstep : path.joinSlash (y :: (ys ++ [name])) = y ++ "/" ++ path.joinSlash (ys ++ [name]) := by
      cases ys <;> simp [path.joinSlash]
    have hd : (y ++ "/" ++ path.joinSlash (ys ++ [name])).data
        = y.data ++ '/' :: (path.joinSlash (ys ++ [name])).data := by
      simp
    rw [List.cons_append, hstep, hd, path.splitSlash_append, hcs, List.append_assoc]

theorem path.dropWhile_snoc (xs : List String) (name : String) (hname : name ≠ "") :
    ∃ ys, (xs ++ [name]).dropWhile (fun e => e == "") = ys ++ [name] := by
  induction xs with
  | nil => exact ⟨[], by simp [List.dropWhile_cons, hname]⟩
  | cons x xs ih =>
    by_cases hx : x = ""
    · obtain ⟨ys, hys⟩ := ih
      exact ⟨ys, by simp [List.dropWhile_cons, hx, hys]⟩
    · exact ⟨x :: xs, by simp [List.dropWhile_cons, hx]⟩

/-- A joined path whose last element is a plain name ends with that name. -/
theorem path.Join_snoc (xs : List String) (name : String) (hname : path.PlainName name) :
    ∃ pre : String, path.Join (xs ++ [name]) = pre ++ name := by
  have hne : name ≠ "" := by
    intro h; apply hname.1; rw [h]
  obtain ⟨ys, hys⟩ := path.dropWhile_snoc xs name hne
  obtain ⟨cs, hcs⟩ := path.joinSlash_snoc ys name hname.2.1
  obtain ⟨pre, hpre⟩ := path.Clean_snoc (path.joinSlash (ys ++ [name])) cs name hname hcs
  refine ⟨pre, ?_⟩
  unfold path.Join
  rw [hys]
  cases ys <;> simpa using hpre

theorem String.append_ne_of_suffix_ne (x y s t : String) (hlen : s.length = t.length)
    (hne : s ≠ t) : x ++ s ≠ y ++ t := by
  intro h
  have hd : x.data ++ s.data = y.data ++ t.data := by
    simpa using congrArg String.data h
  have := (List.append_inj' hd hlen).2
  exact hne (String.ext this)

theorem bak_ne (f : String) : f ++ ".bak" ≠ f := by
  intro h
  have := congrArg String.length h
  simp [String.length_append] at this
  revert this; decide

/-- The server file and the upstream file of a joint commit, and their backups, are four
different paths. -/
theorem joint_paths_distinct (a b c a' b' c' : String) :
    let S := path.Join [a, b, c, "servers.conf"]
    let U := path.Join [a', b', c', "upstreams.conf"]
    S ≠ U ∧ S ≠ U ++ ".bak" ∧ S ++ ".bak" ≠ U ∧ S ++ ".bak" ≠ U ++ ".bak" := by
  intro S U
  obtain ⟨ps, hps⟩ := path.Join_snoc [a, b, c] "servers.conf" (by decide)
  obtain ⟨pu, hpu⟩ := path.Join_snoc [a', b', c'] "upstreams.conf" (by decide)
  have hS : S = ps ++ "servers.conf" := hps
  have hU : U = pu ++ "upstreams.conf" := hpu
  have e1 : U = (pu ++ "up") ++ "streams.conf" := by rw [hU, String.append_assoc]; rfl
  have e2 : S = (ps ++ "servers.") ++ "conf" := by rw [hS, String.append_assoc]; rfl
  have e3 : U = (pu ++ "upstreams.") ++ "conf" := by rw [hU, String.append_assoc]; rfl
  have e4 : S ++ ".bak" = ps ++ "servers.conf.bak" := by rw [hS, String.append_assoc]; rfl
  have e5 : U ++ ".bak" = (pu ++ "up") ++ "streams.conf.bak" := by
    rw [e1, String.append_assoc]; rfl
  refine ⟨?_, ?_, ?_, ?_⟩
  · rw [hS, e1]; exact String.append_ne_of_suffix_ne _ _ _ _ (by decide) (by decide)
  · rw [e2]; exact String.append_ne_of_suffix_ne _ _ _ _ (by decide) (by decide)
  · rw [e3]; exact String.append_ne_of_suffix_ne _ _ _ _ (by decide) (by decide)
  · rw [e4, e5]; exact String.append_ne_of_suffix_ne _ _ _ _ (by decide) (by decide)

/-! ## One full commit when every file operation succeeds -/

/-- A full commit that the validator accepts. -/
theorem writeFile_accepted (env : Env) (first : Bool) (body : Bytes) (file : String)
    (w : World) (hio : ∀ k, env.fault k = none) (hacc : env.verdict w.checks = none) :
    (writeFile env first body file w).1 = none ∧
    (writeFile env first body file w).2.fs file = some (written (w.fs file) first body) ∧
    (writeFile env first body file w).2.fs (file ++ ".bak")
      = (if w.fs file = none then w.fs (file ++ ".bak") else none) ∧
    (∀ p, p ≠ file → p ≠ file ++ ".bak" → (writeFile env first body file w).2.fs p = w.fs p) ∧
    (writeFile env first body file w).2.checks = w.checks + 1 := by
  have hb := bak_ne file
  have hb2 : file ≠ file ++ ".bak" := fun h => hb h.symm
  cases hf : w.fs file <;> cases first <;>
  simp +contextual [writeFile, util.CheckAndCreateDir, ioutil.ReadFile,
    writeFile.commit, os.Rename, os.OpenFile, writeBody, os.File.Write, nginxcmd.CheckConfig,
    os.Remove, FS.set, readIsFatal, os.enoent, os.IsNotExist, written, hio, hf, hacc, hb, hb2]

/-- A full commit that the validator rejects. -/
theorem writeFile_rejected (env : Env) (first : Bool) (body : Bytes) (file : String)
    (w : World) (e : Error) (hio : ∀ k, env.fault k = none)
    (hrej : env.verdict w.checks = some e) :
    (writeFile env first body file w).1 = some e ∧
    (writeFile env first body file w).2.fs file
      = (match w.fs file with | some P => some P | none => some body) ∧
    (writeFile env first body file w).2.fs (file ++ ".bak")
      = (if w.fs file = none then w.fs (file ++ ".bak") else none) ∧
    (∀ p, p ≠ file → p ≠ file ++ ".bak" → (writeFile env first body file w).2.fs p = w.fs p) ∧
    (writeFile env first body file w).2.checks = w.checks + 1 := by
  have hb := bak_ne file
  have hb2 : file ≠ file ++ ".bak" := fun h => hb h.symm
  cases hf : w.fs file <;> cases first <;>
  simp +contextual [writeFile, util.CheckAndCreateDir, ioutil.ReadFile,
    writeFile.commit, os.Rename, os.OpenFile, writeBody, os.File.Write, nginxcmd.CheckConfig,
    os.Remove, FS.set, readIsFatal, os.enoent, os.IsNotExist, hio, hf, hrej, hb, hb2]

/-! ## Claims on the full commit -/

/-- C1, as stated, fails when the rename that puts the backup back fails: the file holds
`a`, the body `b` is appended and rejected, the rollback (the sixth operating-system call of
the commit) fails and is only logged, and the call returns the validator's error with the
rejected content and a `.bak` sibling left on disk. It also fails when the read of the file
(the second call) fails: no backup is made, `b` is written after `a`, and the rejection
leaves `ab`. -/
theorem writeFile_rollback_rename_fails :
    (Example.one "/run/nginx/conf/nginx.conf" [97]).fs "/run/nginx/conf/nginx.conf" = some [97] ∧
    (writeFile (Example.rejectingFailingAt 5) false [98] "/run/nginx/conf/nginx.conf"
      (Example.one "/run/nginx/conf/nginx.conf" [97])).1 = some nginxcmd.ErrorCheck ∧
    (writeFile (Example.rejectingFailingAt 5) false [98] "/run/nginx/conf/nginx.conf"
      (Example.one "/run/nginx/conf/nginx.conf" [97])).2.fs "/run/nginx/conf/nginx.conf"
        = some [97, 98, 10] ∧
    (writeFile (Example.rejectingFailingAt 5) false [98] "/run/nginx/conf/nginx.conf"
      (Example.one "/run/nginx/conf/nginx.conf" [97])).2.fs
        ("/run/nginx/conf/nginx.conf" ++ ".bak") = some [97] ∧
    (writeFile (Example.rejectingFailingAt 1) false [98] "/run/nginx/conf/nginx.conf"
      (Example.one "/run/nginx/conf/nginx.conf" [97])).1 = some nginxcmd.ErrorCheck ∧
    (writeFile (Example.rejectingFailingAt 1) false [98] "/run/nginx/conf/nginx.conf"
      (Example.one "/run/nginx/conf/nginx.conf" [97])).2.fs "/run/nginx/conf/nginx.conf"
        = some [97, 98] := by
  decide

/-- C1, amended. Rollback of a full commit: when the target file exists with content `P`, the
six operating-system calls of the commit (directory, read, rename to the backup, open, write,
rename back) all succeed and the validator rejects the tree after the write with error `e`,
then `writeFile` returns `e`, the file holds exactly `P` again and no `.bak` sibling is left,
for every body and both values of `first`. -/
theorem writeFile_rollback (env : Env) (first : Bool) (body : Bytes) (file : String)
    (w : World) (P : Bytes) (e : Error)
    (hfile : w.fs file = some P)
    (hio : ∀ k, w.ops ≤ k → k < w.ops + 6 → env.fault k = none)
    (hrej : env.verdict w.checks = some e) :
    (writeFile env first body file w).1 = some e ∧
    (writeFile env first body file w).2.fs file = some P ∧
    (writeFile env first body file w).2.fs (file ++ ".bak") = none := by
  have hb := bak_ne file
  have hb2 : file ≠ file ++ ".bak" := fun h => hb h.symm
  have f0 : env.fault w.ops = none := hio _ (by omega) (by omega)
  have f1 : env.fault (w.ops + 1) = none := hio _ (by omega) (by omega)
  have f2 : env.fault (w.ops + 2) = none := hio _ (by omega) (by omega)
  have f3 : env.fault (w.ops + 3) = none := hio _ (by omega) (by omega)
  have f4 : env.fault (w.ops + 4) = none := hio _ (by omega) (by omega)
  have f5 : env.fault (w.ops + 5) = none := hio _ (by omega) (by omega)
  cases first <;>
  simp [writeFile, util.CheckAndCreateDir, ioutil.ReadFile, writeFile.commit, os.Rename,
    os.OpenFile, writeBody, os.File.Write, nginxcmd.CheckConfig, FS.set, f0, f1, f2, f3, f4,
    f5, hfile, hrej, hb, hb2]

/-- C1 amended, at a concrete input: the file holds `a`, the body `b` is appended and
rejected. -/
theorem writeFile_rollback_witness :
    (Example.one "/run/nginx/conf/nginx.conf" [97]).fs "/run/nginx/conf/nginx.conf" = some [97] ∧
    (∀ k, (Example.one "/run/nginx/conf/nginx.conf" [97]).ops ≤ k →
      k < (Example.one "/run/nginx/conf/nginx.conf" [97]).ops + 6 →
      Example.rejecting.fault k = none) ∧
    Example.rejecting.verdict 0 = some nginxcmd.ErrorCheck ∧
    (writeFile Example.rejecting false [98] "/run/nginx/conf/nginx.conf"
      (Example.one "/run/nginx/conf/nginx.conf" [97])).1 = some nginxcmd.ErrorCheck ∧
    (writeFile Example.rejecting false [98] "/run/nginx/conf/nginx.conf"
      (Example.one "/run/nginx/conf/nginx.conf" [97])).2.fs "/run/nginx/conf/nginx.conf"
        = some [97] ∧
    (writeFile Example.rejecting false [98] "/run/nginx/conf/nginx.conf"
      (Example.one "/run/nginx/conf/nginx.conf" [97])).2.fs
        ("/run/nginx/conf/nginx.conf" ++ ".bak") = none :=
  ⟨by decide, fun _ _ _ => rfl, rfl,
    writeFile_rollback Example.rejecting false [98] "/run/nginx/conf/nginx.conf"
      (Example.one "/run/nginx/conf/nginx.conf" [97]) [97] nginxcmd.ErrorCheck
      (by decide) (fun _ _ _ => rfl) rfl⟩

/-- After a run of accepted commits the validator has run once per commit, and the file is
there as soon as one commit was made. -/
theorem writeFileSeq_accepted (env : Env) (file : String) (hio : ∀ k, env.fault k = none)
    (calls : List (Bool × Bytes)) (w : World)
    (hacc : ∀ j, j < calls.length → env.verdict (w.checks + j) = none) :
    (writeFileSeq env file calls w).checks = w.checks + calls.length ∧
    (calls ≠ [] ∨ w.fs file ≠ none → (writeFileSeq env file calls w).fs file ≠ none) := by
  induction calls generalizing w with
  | nil => simp [writeFileSeq]
  | cons c rest ih =>
    obtain ⟨first, body⟩ := c
    have h0 : env.verdict w.checks = none := by simpa using hacc 0 (by simp)
    obtain ⟨-, hfile, -, -, hchecks⟩ := writeFile_accepted env first body file w hio h0
    have hrest : ∀ j, j < rest.length →
        env.verdict ((writeFile env first body file w).2.checks + j) = none := by
      intro j hj
      rw [hchecks, Nat.add_assoc, Nat.add_comm 1 j]
      exact hacc (j + 1) (by simpa using hj)
    obtain ⟨ih1, ih2⟩ := ih (writeFile env first body file w).2 hrest
    refine ⟨?_, fun _ => ?_⟩
    · simp only [writeFileSeq, ih1, hchecks, List.length_cons]; omega
    · simp only [writeFileSeq]
      exact ih2 (Or.inr (by rw [hfile]; simp))

/-- C2, as stated, fails on an absent file: the first commit of the sequence writes `x` to a
file that was not there, the validator rejects it, and `x` stays as the file. -/
theorem writeFile_rejected_body_stays_when_absent :
    Example.empty.fs "/run/nginx/conf/nginx.conf" = none ∧
    (writeFile Example.rejecting true [120] "/run/nginx/conf/nginx.conf" Example.empty).1
      = some nginxcmd.ErrorCheck ∧
    (writeFile Example.rejecting true [120] "/run/nginx/conf/nginx.conf" Example.empty).2.fs
      "/run/nginx/conf/nginx.conf" = some [120] := by
  decide

/-- C2, amended. Last-known-good: after any run of accepted commits on one file, a commit that
the validator rejects returns the validator's error and leaves the file as it was before that
commit whenever the file was there, which is so as soon as one commit was accepted; on a file
that was absent the rejected body stays. File operations are taken to succeed. -/
theorem writeFile_last_known_good (env : Env) (file : String) (calls : List (Bool × Bytes))
    (first : Bool) (body : Bytes) (w : World) (e : Error)
    (hio : ∀ k, env.fault k = none)
    (hacc : ∀ j, j < calls.length → env.verdict (w.checks + j) = none)
    (hrej : env.verdict (w.checks + calls.length) = some e) :
    (writeFile env first body file (writeFileSeq env file calls w)).1 = some e ∧
    (calls ≠ [] → (writeFileSeq env file calls w).fs file ≠ none) ∧
    ((writeFileSeq env file calls w).fs file ≠ none →
      (writeFile env first body file (writeFileSeq env file calls w)).2.fs file
        = (writeFileSeq env file calls w).fs file) ∧
    ((writeFileSeq env file calls w).fs file = none →
      (writeFile env first body file (writeFileSeq env file calls w)).2.fs file
        = some body) := by
  obtain ⟨hc, hf⟩ := writeFileSeq_accepted env file hio calls w hacc
  have hrej' : env.verdict (writeFileSeq env file calls w).checks = some e := by
    rw [hc]; exact hrej
  obtain ⟨h1, h2, -, -, -⟩ :=
    writeFile_rejected env first body file (writeFileSeq env file calls w) e hio hrej'
  refine ⟨h1, fun h => hf (Or.inl h), ?_, ?_⟩
  · intro hne
    rw [h2]
    cases hs : (writeFileSeq env file calls w).fs file with
    | none => exact absurd hs hne
    | some P => rfl
  · intro hnone
    rw [h2, hnone]

/-- C2 amended, at a concrete input: two accepted commits, then a rejected one. -/
theorem writeFile_last_known_good_witness :
    (∀ k, (Example.rejectingAt 2).fault k = none) ∧
    (∀ j, j < [(true, [97]), (false, ([98] : Bytes))].length →
      (Example.rejectingAt 2).verdict (Example.empty.checks + j) = none) ∧
    (Example.rejectingAt 2).verdict (Example.empty.checks + 2) = some nginxcmd.ErrorCheck ∧
    (writeFile (Example.rejectingAt 2) false [99] "/run/nginx/conf/nginx.conf"
      (writeFileSeq (Example.rejectingAt 2) "/run/nginx/conf/nginx.conf"
        [(true, [97]), (false, [98])] Example.empty)).2.fs "/run/nginx/conf/nginx.conf"
      = some [97, 98, 10] :=
  ⟨fun _ => rfl, by decide, by decide, by
    have h := (writeFile_last_known_good (Example.rejectingAt 2) "/run/nginx/conf/nginx.conf"
      [(true, [97]), (false, [98])] false [99] Example.empty nginxcmd.ErrorCheck
      (fun _ => rfl) (by decide) (by decide)).2.2.1 (by decide)
    rw [h]; decide⟩

/-- C3, as stated, fails: after `a` is committed with `first = true` and `b` with
`first = false`, the file holds `a`, `b` and then the newline, not `a`, newline, `b`. And
when the read of the old file fails (the second operating-system call of the commit), a
commit of `b` with `first = true` that the validator accepts leaves `ab`, not `b` alone: the
claim holds only for commits whose file operations succeed. -/
theorem writeFile_merge_newline_is_last :
    (writeFile Example.accepting false [98] "/run/nginx/conf/nginx.conf"
      (writeFile Example.accepting true [97] "/run/nginx/conf/nginx.conf"
        Example.empty).2).2.fs "/run/nginx/conf/nginx.conf" = some [97, 98, 10] ∧
    (writeFile Example.accepting false [98] "/run/nginx/conf/nginx.conf"
      (writeFile Example.accepting true [97] "/run/nginx/conf/nginx.conf"
        Example.empty).2).2.fs "/run/nginx/conf/nginx.conf" ≠ some ([97] ++ [10] ++ [98]) ∧
    (writeFile (Example.failingAt 1) true [98] "/run/nginx/conf/nginx.conf"
      (Example.one "/run/nginx/conf/nginx.conf" [97])).2.fs "/run/nginx/conf/nginx.conf"
        = some [97, 98] := by
  decide

/-- C3, amended. Replace and merge: when the validator accepts both commits (file operations
succeeding), committing `C1` with `first = true` and then `C2` with `first = false` leaves
the file holding `C1`, then `C2`, then one newline; and a single accepted commit made with
`first = true`, or on a file that is not there, leaves the new body alone. -/
theorem writeFile_replace_then_merge (env : Env) (file : String) (C1 C2 : Bytes) (w : World)
    (hio : ∀ k, env.fault k = none)
    (hacc1 : env.verdict w.checks = none)
    (hacc2 : env.verdict (w.checks + 1) = none) :
    (writeFile env false C2 file (writeFile env true C1 file w).2).2.fs file
      = some (C1 ++ C2 ++ [10]) ∧
    (writeFile env true C1 file w).2.fs file = some C1 ∧
    (∀ first, w.fs file = none → (writeFile env first C1 file w).2.fs file = some C1) := by
  obtain ⟨-, hf1, -, -, hc1⟩ := writeFile_accepted env true C1 file w hio hacc1
  have hacc2' : env.verdict (writeFile env true C1 file w).2.checks = none := by
    rw [hc1]; exact hacc2
  obtain ⟨-, hf2, -, -, -⟩ :=
    writeFile_accepted env false C2 file (writeFile env true C1 file w).2 hio hacc2'
  refine ⟨?_, ?_, ?_⟩
  · rw [hf2, hf1]; cases w.fs file <;> simp [written]
  · rw [hf1]; cases w.fs file <;> simp [written]
  · intro first hnone
    rw [(writeFile_accepted env first C1 file w hio hacc1).2.1, hnone]; simp [written]

/-- C3 amended, at a concrete input. -/
theorem writeFile_replace_then_merge_witness :
    (∀ k, Example.accepting.fault k = none) ∧
    Example.accepting.verdict Example.empty.checks = none ∧
    Example.accepting.verdict (Example.empty.checks + 1) = none ∧
    (writeFile Example.accepting false [98] "/run/nginx/conf/nginx.conf"
      (writeFile Example.accepting true [97] "/run/nginx/conf/nginx.conf"
        Example.empty).2).2.fs "/run/nginx/conf/nginx.conf" = some ([97] ++ [98] ++ [10]) :=
  ⟨fun _ => rfl, rfl, rfl,
    (writeFile_replace_then_merge Example.accepting "/run/nginx/conf/nginx.conf" [97] [98]
      Example.empty (fun _ => rfl) rfl rfl).1⟩

/-! ## The joint commit when every file operation succeeds -/

/-- Backup and write of one file without the validator. -/
theorem writeFileNotCheck_ok (env : Env) (first : Bool) (body : Bytes) (file : String)
    (w : World) (hio : ∀ k, env.fault k = none) :
    (writeFileNotCheck env first body file w).1 = ((w.fs file).isSome, none) ∧
    (writeFileNotCheck env first body file w).2.fs file
      = some (written (w.fs file) first body) ∧
    (writeFileNotCheck env first body file w).2.fs (file ++ ".bak")
      = (match w.fs file with | some P => some P | none => w.fs (file ++ ".bak")) ∧
    (∀ p, p ≠ file → p ≠ file ++ ".bak" →
      (writeFileNotCheck env first body file w).2.fs p = w.fs p) ∧
    (writeFileNotCheck env first body file w).2.checks = w.checks := by
  have hb := bak_ne file
  have hb2 : file ≠ file ++ ".bak" := fun h => hb h.symm
  cases hf : w.fs file <;> cases first <;>
  simp +contextual [writeFileNotCheck, util.CheckAndCreateDir, ioutil.ReadFile,
    writeFileNotCheck.write, os.Rename, os.OpenFile, writeBody, os.File.Write,
    FS.set, readIsFatal, os.enoent, os.IsNotExist, written, hio, hf, hb, hb2]

/-- The joint commit of two different files: the result is the validator's verdict; on
acceptance both files hold what was written, on rejection a file that was there holds its old
content again and a file that was not there holds the new body; the backup of a file that was
there is gone either way, and no other path changes. -/
theorem jointCommit_ok (env : Env) (first : Bool) (sb ub : Bytes) (S U : String) (w : World)
    (hio : ∀ k, env.fault k = none)
    (h1 : S ≠ U) (h2 : S ≠ U ++ ".bak") (h3 : S ++ ".bak" ≠ U) (h4 : S ++ ".bak" ≠ U ++ ".bak") :
    (WriteServerAndUpstream.commit env first sb ub S U w).1 = env.verdict w.checks ∧
    (WriteServerAndUpstream.commit env first sb ub S U w).2.fs S
      = (match env.verdict w.checks, w.fs S with
          | some _, some P => some P
          | some _, none => some sb
          | none, old => some (written old first sb)) ∧
    (WriteServerAndUpstream.commit env first sb ub S U w).2.fs U
      = (match env.verdict w.checks, w.fs U with
          | some _, some P => some P
          | some _, none => some ub
          | none, old => some (written old first ub)) ∧
    (WriteServerAndUpstream.commit env first sb ub S U w).2.fs (S ++ ".bak")
      = (if w.fs S = none then w.fs (S ++ ".bak") else none) ∧
    (WriteServerAndUpstream.commit env first sb ub S U w).2.fs (U ++ ".bak")
      = (if w.fs U = none then w.fs (U ++ ".bak") else none) ∧
    (∀ p, p ≠ S → p ≠ U → p ≠ S ++ ".bak" → p ≠ U ++ ".bak" →
      (WriteServerAndUpstream.commit env first sb ub S U w).2.fs p = w.fs p) := by
  have hS := bak_ne S
  have hS' : S ≠ S ++ ".bak" := fun h => hS h.symm
  have hU := bak_ne U
  have hU' : U ≠ U ++ ".bak" := fun h => hU h.symm
  have h1' := h1.symm
  have h2' := h2.symm
  have h3' := h3.symm
  have h4' := h4.symm
  cases hv : env.verdict w.checks <;> cases hs : w.fs S <;> cases hu : w.fs U <;>
    cases first <;>
  simp +contextual [WriteServerAndUpstream.commit, writeFileNotCheck, util.CheckAndCreateDir,
    ioutil.ReadFile, writeFileNotCheck.write, os.Rename, os.OpenFile, writeBody,
    os.File.Write, nginxcmd.CheckConfig, os.Remove, FS.set, readIsFatal, os.enoent,
    os.IsNotExist, written, hio, hv, hs, hu, hS, hS', hU, hU', h1, h2, h3, h4, h1', h2', h3',
    h4']

/-- A file named `servers.conf` or `upstreams.conf` is not a backup name. -/
theorem joint_paths_not_backup (a b c : String) (p : String) :
    path.Join [a, b, c, "servers.conf"] ≠ p ++ ".bak" ∧
    path.Join [a, b, c, "upstreams.conf"] ≠ p ++ ".bak" := by
  obtain ⟨ps, hps⟩ := path.Join_snoc [a, b, c] "servers.conf" (by decide)
  obtain ⟨pu, hpu⟩ := path.Join_snoc [a, b, c] "upstreams.conf" (by decide)
  have hS : path.Join [a, b, c, "servers.conf"] = (ps ++ "servers.") ++ "conf" := by
    rw [String.append_assoc]; exact hps
  have hU : path.Join [a, b, c, "upstreams.conf"] = (pu ++ "upstreams.") ++ "conf" := by
    rw [String.append_assoc]; exact hpu
  constructor
  · rw [hS]; exact String.append_ne_of_suffix_ne _ _ _ _ (by decide) (by decide)
  · rw [hU]; exact String.append_ne_of_suffix_ne _ _ _ _ (by decide) (by decide)

section Claims

variable {Config Server Upstream Nginx : Type}

/-! ## Claims on the joint commit -/

/-- C4, as stated, fails on absent files: the joint commit writes the server file of a domain
that had none, the validator rejects, and the file stays with the rejected body instead of
being absent again. -/
theorem WriteServerAndUpstream_rejected_body_stays_when_absent :
    Example.empty.fs "/run/nginx/conf/http/acme/servers.conf" = none ∧
    (WriteServerAndUpstream Example.rejecting Example.manager true () "http" "acme" [115] [117]
      Example.empty).1 = some nginxcmd.ErrorCheck ∧
    (WriteServerAndUpstream Example.rejecting Example.manager true () "http" "acme" [115] [117]
      Example.empty).2.fs "/run/nginx/conf/http/acme/servers.conf" = some [115] := by
  decide

/-- C4, amended. Joint-commit rollback: when both renders succeed, every file operation
succeeds and the one validator run rejects with `e`, `WriteServerAndUpstream` returns `e`;
each of the two files that was there before the call holds its old content again and has no
backup left; each of the two that was absent holds the body just written. -/
theorem WriteServerAndUpstream_rollback (env : Env)
    (n : NginxConfigFileTemplete Config Server Upstream Nginx) (first : Bool) (c : Config)
    (configType tenant : String) (server : Server) (upstream : Upstream) (w : World)
    (sb ub : Bytes) (e : Error)
    (hio : ∀ k, env.fault k = none)
    (hs : n.serverTmpl.Write env ⟨server, c⟩ = (sb, none))
    (hu : n.tcpUpstreamTmpl.Write env ⟨upstream, c⟩ = (ub, none))
    (hrej : env.verdict w.checks = some e) :
    let S := path.Join [n.configFileDirPath, if configType = "" then "http" else configType,
      if tenant = "" then "default" else tenant, "servers.conf"]
    let U := path.Join [n.configFileDirPath, "stream",
      if tenant = "" then "default" else tenant, "upstreams.conf"]
    let r := WriteServerAndUpstream env n first c configType tenant server upstream w
    r.1 = some e ∧
    (∀ P, w.fs S = some P → r.2.fs S = some P ∧ r.2.fs (S ++ ".bak") = none) ∧
    (∀ P, w.fs U = some P → r.2.fs U = some P ∧ r.2.fs (U ++ ".bak") = none) ∧
    (w.fs S = none → r.2.fs S = some sb) ∧
    (w.fs U = none → r.2.fs U = some ub) := by
  intro S U r
  obtain ⟨d1, d2, d3, d4⟩ := joint_paths_distinct n.configFileDirPath
    (if configType = "" then "http" else configType) (if tenant = "" then "default" else tenant)
    n.configFileDirPath "stream" (if tenant = "" then "default" else tenant)
  have hr : r = WriteServerAndUpstream.commit env first sb ub S U w := by
    simp only [r, WriteServerAndUpstream, hs, hu, S, U]
  obtain ⟨j1, j2, j3, j4, j5, -⟩ := jointCommit_ok env first sb ub S U w hio d1 d2 d3 d4
  rw [hr]
  refine ⟨by rw [j1, hrej], ?_, ?_, ?_, ?_⟩
  · intro P hP
    exact ⟨by rw [j2, hrej, hP], by rw [j4, hP]; simp⟩
  · intro P hP
    exact ⟨by rw [j3, hrej, hP], by rw [j5, hP]; simp⟩
  · intro hS; rw [j2, hrej, hS]
  · intro hU; rw [j3, hrej, hU]

/-- C4 amended, at a concrete input: the server file was there, the upstream file was not. -/
theorem WriteServerAndUpstream_rollback_witness :
    (∀ k, Example.rejecting.fault k = none) ∧
    Example.manager.serverTmpl.Write Example.rejecting ⟨[115], ()⟩ = ([115], none) ∧
    Example.manager.tcpUpstreamTmpl.Write Example.rejecting ⟨[117], ()⟩ = ([117], none) ∧
    (WriteServerAndUpstream Example.rejecting Example.manager false () "" "acme" [115] [117]
      (Example.one "/run/nginx/conf/http/acme/servers.conf" [111])).1
        = some nginxcmd.ErrorCheck ∧
    (WriteServerAndUpstream Example.rejecting Example.manager false () "" "acme" [115] [117]
      (Example.one "/run/nginx/conf/http/acme/servers.conf" [111])).2.fs
        "/run/nginx/conf/http/acme/servers.conf" = some [111] ∧
    (WriteServerAndUpstream Example.rejecting Example.manager false () "" "acme" [115] [117]
      (Example.one "/run/nginx/conf/http/acme/servers.conf" [111])).2.fs
        "/run/nginx/conf/stream/acme/upstreams.conf" = some [117] := by
  have h := WriteServerAndUpstream_rollback Example.rejecting Example.manager false () ""
    "acme" [115] [117] (Example.one "/run/nginx/conf/http/acme/servers.conf" [111]) [115] [117]
    nginxcmd.ErrorCheck (fun _ => rfl) (by decide) (by decide) rfl
  exact ⟨fun _ => rfl, by decide, by decide, h.1, (h.2.1 [111] (by decide)).1,
    h.2.2.2.2 (by decide)⟩


/-- The comment on line 112 has `WriteServerAndUpstream` write a new file with just one server
and one upstream, but with `first = false` on files that are there, lines 211-214 append:
the server file holding `o` ends as `o`, `s`, newline and the upstream file holding `p` as
`p`, `u`, newline. -/
theorem WriteServerAndUpstream_appends_when_not_first :
    (WriteServerAndUpstream Example.accepting Example.manager false () "" "" [115] [117]
      (Example.two "/run/nginx/conf/http/default/servers.conf" [111]
        "/run/nginx/conf/stream/default/upstreams.conf" [112])).1 = none ∧
    (WriteServerAndUpstream Example.accepting Example.manager false () "" "" [115] [117]
      (Example.two "/run/nginx/conf/http/default/servers.conf" [111]
        "/run/nginx/conf/stream/default/upstreams.conf" [112])).2.fs
        "/run/nginx/conf/http/default/servers.conf" = some [111, 115, 10] ∧
    (WriteServerAndUpstream Example.accepting Example.manager false () "" "" [115] [117]
      (Example.two "/run/nginx/conf/http/default/servers.conf" [111]
        "/run/nginx/conf/stream/default/upstreams.conf" [112])).2.fs
        "/run/nginx/conf/stream/default/upstreams.conf" = some [112, 117, 10] := by
  decide

/-! ## Backups -/

/-- C5. Backup cleanup: when every file operation succeeds, a full commit and a joint commit
keep the tree free of backups, whether the validator accepts or rejects: if no path of the
tree is a `.bak` name before `writeFile`, none is afterwards (the written file itself left
aside, should it be named like a backup), and likewise for `WriteServerAndUpstream`. -/
theorem backup_cleanup (env : Env) (hio : ∀ k, env.fault k = none) :
    (∀ (first : Bool) (body : Bytes) (file : String) (w : World), NoBackup w.fs →
      ∀ p : String, p ++ ".bak" ≠ file →
        (writeFile env first body file w).2.fs (p ++ ".bak") = none) ∧
    (∀ (n : NginxConfigFileTemplete Config Server Upstream Nginx) (first : Bool) (c : Config)
      (configType tenant : String) (server : Server) (upstream : Upstream) (w : World),
      NoBackup w.fs →
        NoBackup (WriteServerAndUpstream env n first c configType tenant server upstream w).2.fs)
    := by
  constructor
  · intro first body file w hno p hp
    have key : (writeFile env first body file w).2.fs (file ++ ".bak")
          = (if w.fs file = none then w.fs (file ++ ".bak") else none) ∧
        (∀ q, q ≠ file → q ≠ file ++ ".bak" →
          (writeFile env first body file w).2.fs q = w.fs q) := by
      cases hv : env.verdict w.checks with
      | none =>
        obtain ⟨-, -, h3, h4, -⟩ := writeFile_accepted env first body file w hio hv
        exact ⟨h3, h4⟩
      | some e =>
        obtain ⟨-, -, h3, h4, -⟩ := writeFile_rejected env first body file w e hio hv
        exact ⟨h3, h4⟩
    by_cases hq : p ++ ".bak" = file ++ ".bak"
    · rw [hq, key.1, hno file]; simp
    · rw [key.2 _ hp hq]; exact hno p
  · intro n first c configType tenant server upstream w hno p
    obtain ⟨d1, d2, d3, d4⟩ := joint_paths_distinct n.configFileDirPath
      (if configType = "" then "http" else configType)
      (if tenant = "" then "default" else tenant)
      n.configFileDirPath "stream" (if tenant = "" then "default" else tenant)
    have hS := (joint_paths_not_backup n.configFileDirPath
      (if configType = "" then "http" else configType)
      (if tenant = "" then "default" else tenant) p).1
    have hU := (joint_paths_not_backup n.configFileDirPath "stream"
      (if tenant = "" then "default" else tenant) p).2
    unfold WriteServerAndUpstream
    rcases hs : n.serverTmpl.Write env ⟨server, c⟩ with ⟨sb, _ | es⟩
    · rcases hu : n.tcpUpstreamTmpl.Write env ⟨upstream, c⟩ with ⟨ub, _ | eu⟩
      · simp only []
        obtain ⟨-, -, -, j4, j5, j6⟩ := jointCommit_ok env first sb ub _ _ w hio d1 d2 d3 d4
        by_cases hq1 : p ++ ".bak" = path.Join [n.configFileDirPath,
            if configType = "" then "http" else configType,
            if tenant = "" then "default" else tenant, "servers.conf"] ++ ".bak"
        · rw [hq1, j4, hno]; simp
        · by_cases hq2 : p ++ ".bak" = path.Join [n.configFileDirPath, "stream",
              if tenant = "" then "default" else tenant, "upstreams.conf"] ++ ".bak"
          · rw [hq2, j5, hno]; simp
          · rw [j6 _ (fun h => hS h.symm) (fun h => hU h.symm) hq1 hq2]; exact hno p
      · exact hno p
    · exact hno p

/-- C5 at a concrete input: a rejected commit on a file that was there. -/
theorem backup_cleanup_witness :
    (∀ k, Example.rejecting.fault k = none) ∧
    (writeFile Example.rejecting false [98] "/run/nginx/conf/nginx.conf"
      (Example.one "/run/nginx/conf/nginx.conf" [97])).2.fs
        ("/run/nginx/conf/nginx.conf" ++ ".bak") = none :=
  ⟨fun _ => rfl,
    (@backup_cleanup Unit Bytes Bytes Bytes Example.rejecting (fun _ => rfl)).1 false [98]
      "/run/nginx/conf/nginx.conf" (Example.one "/run/nginx/conf/nginx.conf" [97])
      (fun p => by
        have h : p ++ ".bak" ≠ "/run/nginx/conf/nginx." ++ "conf" :=
          String.append_ne_of_suffix_ne _ _ _ _ (by decide) (by decide)
        have h2 : p ++ ".bak" ≠ "/run/nginx/conf/nginx.conf" := h
        simp [Example.one, h2])
      "/run/nginx/conf/nginx.conf" (by decide)⟩

/-! ## Claims on the public operations -/

/-- C6, as stated, fails when the validator rejects: `WriteServer` with no server on a file
holding `x` leaves the file holding `x`, not empty. -/
theorem WriteServer_empty_list_rejected_keeps_content :
    (WriteServer Example.rejecting Example.manager () "http" "acme" []
      (Example.one "/run/nginx/conf/http/acme/acme_servers.conf" [120])).1
        = some nginxcmd.ErrorCheck ∧
    (WriteServer Example.rejecting Example.manager () "http" "acme" []
      (Example.one "/run/nginx/conf/http/acme/acme_servers.conf" [120])).2.fs
        "/run/nginx/conf/http/acme/acme_servers.conf" = some [120] := by
  decide

/-- C6, amended. Empty-list truncation: `WriteServer` with an empty server list commits the
empty body with `first = true`. When the file operations succeed and the validator accepts,
the domain's server file exists and is empty whatever it held before; when the validator
rejects, a file that was there keeps its prior content and a file that was absent exists and
is empty. -/
theorem WriteServer_empty_list (env : Env)
    (n : NginxConfigFileTemplete Config Server Upstream Nginx) (c : Config)
    (configtype tenant : String) (w : World) (hio : ∀ k, env.fault k = none) :
    let file := path.Join [n.configFileDirPath, if configtype = "" then "http" else configtype,
      if tenant = "" then "default" else tenant,
      (if tenant = "" then "default" else tenant) ++ "_servers.conf"]
    let r := WriteServer env n c configtype tenant [] w
    (env.verdict w.checks = none → r.1 = none ∧ r.2.fs file = some []) ∧
    (∀ e, env.verdict w.checks = some e →
      r.1 = some e ∧ (∀ P, w.fs file = some P → r.2.fs file = some P) ∧
        (w.fs file = none → r.2.fs file = some [])) := by
  intro file r
  have hr : r = writeFile env true [] file w := by
    simp [r, WriteServer, file]
  rw [hr]
  constructor
  · intro hv
    obtain ⟨h1, h2, -, -, -⟩ := writeFile_accepted env true [] file w hio hv
    refine ⟨h1, ?_⟩
    rw [h2]; cases w.fs file <;> simp [written]
  · intro e hv
    obtain ⟨h1, h2, -, -, -⟩ := writeFile_rejected env true [] file w e hio hv
    refine ⟨h1, ?_, ?_⟩
    · intro P hP; rw [h2, hP]
    · intro hnone; rw [h2, hnone]

/-- C6 amended, at a concrete input: an accepted commit empties a file that held `x`. -/
theorem WriteServer_empty_list_witness :
    (∀ k, Example.accepting.fault k = none) ∧
    Example.accepting.verdict 0 = none ∧
    (WriteServer Example.accepting Example.manager () "" "" []
      (Example.one "/run/nginx/conf/http/default/default_servers.conf" [120])).2.fs
        "/run/nginx/conf/http/default/default_servers.conf" = some [] := by
  have h := (WriteServer_empty_list Example.accepting Example.manager () "" ""
    (Example.one "/run/nginx/conf/http/default/default_servers.conf" [120])
    (fun _ => rfl)).1 rfl
  exact ⟨fun _ => rfl, rfl, h.2⟩

/-- C7, as stated, fails: with every render and every file operation succeeding, a validator
rejection comes back to the caller as an error from `WriteServerAndUpstream`, and from
`WriteServer` called with no server. -/
theorem validator_rejection_is_returned :
    (WriteServerAndUpstream Example.rejecting Example.manager true () "http" "acme" [115] [117]
      Example.empty).1 ≠ none ∧
    (WriteServer Example.rejecting Example.manager () "http" "acme" [] Example.empty).1
      ≠ none := by
  decide

/-- C7, amended. When the only failures of a call are render failures and validator
rejections (every file operation succeeds): `WriteUpstream` returns no error; `WriteServer`
with at least one server returns no error; `WriteServerAndUpstream` returns no error when a
render fails; but a validator rejection is returned as the error of `WriteServer` called with
no server and of `WriteServerAndUpstream` when both renders succeed. -/
theorem errors_behind_facade (env : Env)
    (n : NginxConfigFileTemplete Config Server Upstream Nginx) (first : Bool) (c : Config)
    (configType tenant : String) (servers : List Server) (upstreams : List Upstream)
    (server : Server) (upstream : Upstream) (w : World)
    (hio : ∀ k, env.fault k = none) :
    (WriteUpstream env n c tenant upstreams w).1 = none ∧
    (servers ≠ [] → (WriteServer env n c configType tenant servers w).1 = none) ∧
    (WriteServer env n c configType tenant [] w).1 = env.verdict w.checks ∧
    ((n.serverTmpl.Write env ⟨server, c⟩).2 ≠ none ∨
        (n.tcpUpstreamTmpl.Write env ⟨upstream, c⟩).2 ≠ none →
      (WriteServerAndUpstream env n first c configType tenant server upstream w).1 = none) ∧
    ((n.serverTmpl.Write env ⟨server, c⟩).2 = none →
        (n.tcpUpstreamTmpl.Write env ⟨upstream, c⟩).2 = none →
      (WriteServerAndUpstream env n first c configType tenant server upstream w).1
        = env.verdict w.checks) := by
  refine ⟨by simp [WriteUpstream], ?_, ?_, ?_, ?_⟩
  · intro hne
    cases servers with
    | nil => exact absurd rfl hne
    | cons s rest => simp [WriteServer]
  · simp only [WriteServer, List.length_nil, Nat.lt_one_iff, if_true]
    cases hv : env.verdict w.checks with
    | none => exact (writeFile_accepted env true [] _ w hio hv).1
    | some e => exact (writeFile_rejected env true [] _ w e hio hv).1
  · intro h
    unfold WriteServerAndUpstream
    rcases hs : n.serverTmpl.Write env ⟨server, c⟩ with ⟨sb, _ | es⟩
    · rcases hu : n.tcpUpstreamTmpl.Write env ⟨upstream, c⟩ with ⟨ub, _ | eu⟩
      · simp [hs, hu] at h
      · rfl
    · rfl
  · intro h1 h2
    obtain ⟨d1, d2, d3, d4⟩ := joint_paths_distinct n.configFileDirPath
      (if configType = "" then "http" else configType)
      (if tenant = "" then "default" else tenant)
      n.configFileDirPath "stream" (if tenant = "" then "default" else tenant)
    unfold WriteServerAndUpstream
    rcases hs : n.serverTmpl.Write env ⟨server, c⟩ with ⟨sb, _ | es⟩
    · rcases hu : n.tcpUpstreamTmpl.Write env ⟨upstream, c⟩ with ⟨ub, _ | eu⟩
      · exact (jointCommit_ok env first sb ub _ _ w hio d1 d2 d3 d4).1
      · simp [hu] at h2
    · simp [hs] at h1

/-- C7 amended, at a concrete input: one server fails to render, the other is rejected. -/
theorem errors_behind_facade_witness :
    (∀ k, Example.rejecting.fault k = none) ∧
    (WriteUpstream Example.rejecting Example.manager () "acme" [[117]] Example.empty).1 = none ∧
    (WriteServer Example.rejecting Example.manager () "http" "acme" [[], [115]]
      Example.empty).1 = none ∧
    (WriteServerAndUpstream Example.rejecting Example.manager true () "http" "acme" [] [117]
      Example.empty).1 = none := by
  have h := errors_behind_facade Example.rejecting Example.manager true () "http" "acme"
    [[], [115]] [[117]] [] [117] Example.empty (fun _ => rfl)
  exact ⟨fun _ => rfl, h.1, h.2.1 (by decide), h.2.2.2.1 (Or.inl (by decide))⟩

/-- The errors of the open and of the writes, when the commit gets as far as the open: the
directory was created, the read of the old file did not end the call, and the old file, if
one was read, was renamed to its backup. `old` is the old content the commit works on and `k`
the number of its open call. -/
theorem writeFile_open_write_errors (env : Env) (first : Bool) (body : Bytes) (file : String)
    (w : World) (old : Option Bytes) (k : Nat)
    (hold : old = if env.fault (w.ops + 1) = none then w.fs file else none)
    (hk : k = if old = none then w.ops + 2 else w.ops + 3)
    (h0 : env.fault w.ops = none)
    (hread : ∀ rerr, env.fault (w.ops + 1) = some rerr → readIsFatal rerr = false)
    (hren : old ≠ none → env.fault (w.ops + 2) = none) :
    (∀ err, env.fault k = some err → (writeFile env first body file w).1 = some err) ∧
    (env.fault k = none → ∀ e1, env.fault (k + 1) = some e1 →
      ((written old first body).length ≤ env.short (k + 1) →
        (writeFile env first body file w).1 = some e1) ∧
      (env.short (k + 1) < (written old first body).length →
        ∀ e2, env.fault (k + 2) = some e2 →
          (writeFile env first body file w).1 = some e2)) := by
  have hb := bak_ne file
  have hb2 : file ≠ file ++ ".bak" := fun h => hb h.symm
  cases hr : env.fault (w.ops + 1) with
  | some rerr =>
    have hnf := hread rerr hr
    simp only [hr, reduceCtorEq, if_false] at hold
    subst hold
    simp only [if_true] at hk
    subst hk
    refine ⟨?_, ?_⟩
    · intro err he
      cases hf : w.fs file <;>
      simp [writeFile, util.CheckAndCreateDir, ioutil.ReadFile, writeFile.commit,
        os.OpenFile, h0, hr, hnf, he, hf]
    · intro he e1 he1
      refine ⟨?_, ?_⟩
      · intro hlen
        cases hf : w.fs file <;>
        simp [writeFile, util.CheckAndCreateDir, ioutil.ReadFile, writeFile.commit,
          os.OpenFile, writeBody, os.File.Write, FS.set, written, h0, hr, hnf, he, he1, hf]
          at hlen ⊢ <;>
        split_ifs with h <;> first | rfl | exact absurd h (Nat.not_lt.mpr hlen)
      · intro hlen e2 he2
        cases hf : w.fs file <;>
        simp [writeFile, util.CheckAndCreateDir, ioutil.ReadFile, writeFile.commit,
          os.OpenFile, writeBody, os.File.Write, FS.set, written, h0, hr, hnf, he, he1, he2,
          hf] at hlen ⊢ <;>
        split_ifs with h <;> rfl
  | none =>
    simp only [hr, if_true] at hold
    subst hold
    cases hf : w.fs file with
    | none =>
      simp only [hf, if_true] at hk
      subst hk
      refine ⟨?_, ?_⟩
      · intro err he
        simp [writeFile, util.CheckAndCreateDir, ioutil.ReadFile, writeFile.commit,
          os.OpenFile, readIsFatal, os.enoent, os.IsNotExist, h0, hr, he, hf]
      · intro he e1 he1
        refine ⟨?_, ?_⟩
        · intro hlen
          simp [writeFile, util.CheckAndCreateDir, ioutil.ReadFile, writeFile.commit,
            os.OpenFile, writeBody, os.File.Write, FS.set, written, readIsFatal, os.enoent,
            os.IsNotExist, h0, hr, he, he1, hf] at hlen ⊢
          split_ifs with h <;> first | rfl | exact absurd h (Nat.not_lt.mpr hlen)
        · intro hlen e2 he2
          simp [writeFile, util.CheckAndCreateDir, ioutil.ReadFile, writeFile.commit,
            os.OpenFile, writeBody, os.File.Write, FS.set, written, readIsFatal, os.enoent,
            os.IsNotExist, h0, hr, he, he1, he2, hf] at hlen ⊢
          split_ifs with h <;> rfl
    | some P =>
      have h2 : env.fault (w.ops + 2) = none := hren (by rw [hf]; simp)
      simp only [hf, reduceCtorEq, if_false] at hk
      subst hk
      refine ⟨?_, ?_⟩
      · intro err he
        cases first <;>
        simp [writeFile, util.CheckAndCreateDir, ioutil.ReadFile, writeFile.commit,
          os.Rename, os.OpenFile, h0, hr, h2, he, hf]
      · intro he e1 he1
        refine ⟨?_, ?_⟩
        · intro hlen
          cases first <;>
          simp [writeFile, util.CheckAndCreateDir, ioutil.ReadFile, writeFile.commit,
            os.Rename, os.OpenFile, writeBody, os.File.Write, FS.set, written, h0, hr, h2,
            he, he1, hf, hb, hb2] at hlen ⊢ <;>
          split_ifs with h <;> first | rfl | exact absurd h (Nat.not_lt.mpr hlen)
        · intro hlen e2 he2
          cases first <;>
          simp [writeFile, util.CheckAndCreateDir, ioutil.ReadFile, writeFile.commit,
            os.Rename, os.OpenFile, writeBody, os.File.Write, FS.set, written, h0, hr, h2,
            he, he1, he2, hf, hb, hb2] at hlen ⊢ <;>
          split_ifs with h <;> rfl

/-- A commit either returns an error before its open call, or gets as far as the open: the
directory was created, the read of the old file did not end the call, and the old file, if
one was read, was renamed to its backup. -/
theorem writeFile_fails_or_opens (env : Env) (first : Bool) (body : Bytes) (file : String)
    (w : World) :
    (writeFile env first body file w).1 ≠ none ∨
    (env.fault w.ops = none ∧
      (∀ rerr, env.fault (w.ops + 1) = some rerr → readIsFatal rerr = false) ∧
      ((if env.fault (w.ops + 1) = none then w.fs file else none) ≠ none →
        env.fault (w.ops + 2) = none)) := by
  cases h0 : env.fault w.ops with
  | some e0 =>
    left
    simp [writeFile, util.CheckAndCreateDir, h0]
  | none =>
    cases hr : env.fault (w.ops + 1) with
    | some rerr =>
      cases hfat : readIsFatal rerr with
      | true =>
        left
        simp [writeFile, util.CheckAndCreateDir, ioutil.ReadFile, h0, hr, hfat]
      | false =>
        right
        refine ⟨rfl, ?_, ?_⟩
        · intro r hr2
          cases hr2
          exact hfat
        · simp
    | none =>
      cases hf : w.fs file with
      | none =>
        right
        exact ⟨rfl, by simp, by simp⟩
      | some P =>
        cases h2 : env.fault (w.ops + 2) with
        | some e2 =>
          left
          simp [writeFile, util.CheckAndCreateDir, ioutil.ReadFile, writeFile.commit,
            os.Rename, h0, hr, h2, hf]
        | none =>
          right
          exact ⟨rfl, by simp, fun _ => rfl⟩


/-- C8, as stated, fails: creating the directory fails, `writeFile` returns an error, and
`WriteUpstream` and `WriteServer` (with a server to write) still return no error to their
caller; and when reading the existing file fails for a reason other than absence, `writeFile`
itself goes on and returns no error. -/
theorem io_error_not_returned :
    (writeFile (Example.failingAt 0) true [117, 10]
      "/run/nginx/conf/stream/acme/upstreams.conf" Example.empty).1 ≠ none ∧
    (WriteUpstream (Example.failingAt 0) Example.manager () "acme" [[117]] Example.empty).1
      = none ∧
    (writeFile (Example.failingAt 0) true [115]
      "/run/nginx/conf/http/acme/acme_servers.conf" Example.empty).1 ≠ none ∧
    (WriteServer (Example.failingAt 0) Example.manager () "http" "acme" [[115]]
      Example.empty).1 = none ∧
    (ioutil.ReadFile (Example.failingAt 1) "/run/nginx/conf/nginx.conf"
      ⟨(Example.one "/run/nginx/conf/nginx.conf" [97]).fs, 1, 0⟩).1.2 ≠ none ∧
    (writeFile (Example.failingAt 1) true [98] "/run/nginx/conf/nginx.conf"
      (Example.one "/run/nginx/conf/nginx.conf" [97])).1 = none := by
  decide

/-- C8, amended. The operating-system calls of a commit are numbered from `w.ops` in the
order in which they are made: directory, read, rename to the backup when an old file was
read, open, write, second write. Below, `old` is the old content the commit works on (there
is one exactly when the read succeeded on a file that is there) and `k` the number of the
open call. `writeFile` returns an error whenever creating the directory fails, whenever the
rename to the backup fails, whenever the open fails and whenever writing fails (the first
write fails and either left nothing to write again or the second write fails too), whatever
the calls made before returned; when the commit gets as far as the open, the error returned
is that of the open or of the failed write. `NewNginxTemplate` and `WriteServer` with no
server return an error whenever their `writeFile` does; `WriteServer` with a server to write
and `WriteUpstream` return no error whatever `writeFile` returned. -/
theorem io_errors_of_a_commit (env : Env)
    (n : NginxConfigFileTemplete Config Server Upstream Nginx) (first : Bool) (body : Bytes)
    (file : String) (c : Config) (configType tenant : String) (servers : List Server)
    (upstreams : List Upstream) (data : Nginx) (w : World) :
    (∀ err, env.fault w.ops = some err →
      (writeFile env first body file w).1 = some (fmt.Errorf
        ("check or create dir " ++ path.Dir file ++ " failure " ++ err.text))) ∧
    (∀ err, env.fault w.ops = none → env.fault (w.ops + 1) = none → w.fs file ≠ none →
      env.fault (w.ops + 2) = some err → (writeFile env first body file w).1 = some err) ∧
    (∀ old k, old = (if env.fault (w.ops + 1) = none then w.fs file else none) →
      k = (if old = none then w.ops + 2 else w.ops + 3) →
      (env.fault k ≠ none → (writeFile env first body file w).1 ≠ none) ∧
      (env.fault (k + 1) ≠ none →
        (written old first body).length ≤ env.short (k + 1) ∨ env.fault (k + 2) ≠ none →
        (writeFile env first body file w).1 ≠ none) ∧
      (env.fault w.ops = none →
        (∀ rerr, env.fault (w.ops + 1) = some rerr → readIsFatal rerr = false) →
        (old ≠ none → env.fault (w.ops + 2) = none) →
        (∀ err, env.fault k = some err → (writeFile env first body file w).1 = some err) ∧
        (env.fault k = none → ∀ e1, env.fault (k + 1) = some e1 →
          ((written old first body).length ≤ env.short (k + 1) →
            (writeFile env first body file w).1 = some e1) ∧
          (env.short (k + 1) < (written old first body).length →
            ∀ e2, env.fault (k + 2) = some e2 →
              (writeFile env first body file w).1 = some e2)))) ∧
    (∀ nginxBody, n.nginxTmpl.Write env data = (nginxBody, none) →
      (writeFile env true nginxBody (path.Join [n.configFileDirPath, "nginx.conf"]) w).1 ≠ none →
      (NewNginxTemplate env n data w).1 ≠ none) ∧
    (WriteServer env n c configType tenant [] w).1
      = (writeFile env true [] (path.Join [n.configFileDirPath,
          if configType = "" then "http" else configType,
          if tenant = "" then "default" else tenant,
          (if tenant = "" then "default" else tenant) ++ "_servers.conf"]) w).1 ∧
    (servers ≠ [] → (WriteServer env n c configType tenant servers w).1 = none) ∧
    (WriteUpstream env n c tenant upstreams w).1 = none := by
  refine ⟨?_, ?_, ?_, ?_, ?_, ?_, ?_⟩
  · intro err h
    simp [writeFile, util.CheckAndCreateDir, h]
  · intro err h0 h1 hf h2
    obtain ⟨P, hP⟩ := Option.ne_none_iff_exists'.mp hf
    simp [writeFile, util.CheckAndCreateDir, ioutil.ReadFile, writeFile.commit, os.Rename,
      h0, h1, h2, hP]
  · intro old k hold hk
    have hexact := writeFile_open_write_errors env first body file w old k hold hk
    refine ⟨?_, ?_, hexact⟩
    · intro hne
      rcases writeFile_fails_or_opens env first body file w with herr | ⟨h0, hread, hren⟩
      · exact herr
      · obtain ⟨err, he⟩ := Option.ne_none_iff_exists'.mp hne
        rw [(hexact h0 hread (by rw [hold]; exact hren)).1 err he]
        simp
    · intro hne1 hor
      rcases writeFile_fails_or_opens env first body file w with herr | ⟨h0, hread, hren⟩
      · exact herr
      · obtain ⟨hopen, hwrite⟩ := hexact h0 hread (by rw [hold]; exact hren)
        cases hk0 : env.fault k with
        | some err => rw [hopen err hk0]; simp
        | none =>
          obtain ⟨e1, he1⟩ := Option.ne_none_iff_exists'.mp hne1
          obtain ⟨hfull, hshort⟩ := hwrite hk0 e1 he1
          by_cases hlt : env.short (k + 1) < (written old first body).length
          · rcases hor with hle | hne2
            · exact absurd hlt (Nat.not_lt.mpr hle)
            · obtain ⟨e2, he2⟩ := Option.ne_none_iff_exists'.mp hne2
              rw [hshort hlt e2 he2]; simp
          · rw [hfull (Nat.not_lt.mp hlt)]; simp
  · intro nginxBody hrender hne
    unfold NewNginxTemplate
    rw [hrender]
    simp only
    rcases hw : writeFile env true nginxBody (path.Join [n.configFileDirPath, "nginx.conf"]) w
      with ⟨_ | err, w2⟩
    · rw [hw] at hne; exact absurd rfl hne
    · simp only; split <;> simp
  · simp [WriteServer]
  · intro hne
    cases servers with
    | nil => exact absurd rfl hne
    | cons s rest => simp [WriteServer]
  · simp [WriteUpstream]

/-- C8 amended, at concrete inputs: the rename to the backup fails; and the read of the old
file fails with `is a directory`, the commit goes on, and the open fails. -/
theorem io_errors_of_a_commit_witness :
    (Example.failingAt 2).fault 2 = some (Error.mk .plain "permission denied" false) ∧
    (writeFile (Example.failingAt 2) false [98] "/run/nginx/conf/nginx.conf"
      (Example.one "/run/nginx/conf/nginx.conf" [97])).1
        = some (Error.mk .plain "permission denied" false) ∧
    (Example.failingFrom 1).fault 1 ≠ none ∧
    (Example.failingFrom 1).fault 2 ≠ none ∧
    (writeFile (Example.failingFrom 1) true [98] "/run/nginx/conf/nginx.conf"
      (Example.one "/run/nginx/conf/nginx.conf" [97])).1 ≠ none :=
  ⟨rfl, (io_errors_of_a_commit (Example.failingAt 2) Example.manager false [98]
      "/run/nginx/conf/nginx.conf" () "" "" [] [] []
      (Example.one "/run/nginx/conf/nginx.conf" [97])).2.1
      (Error.mk .plain "permission denied" false) rfl rfl (by decide) rfl,
    by decide, by decide,
    ((io_errors_of_a_commit (Example.failingFrom 1) Example.manager true [98]
      "/run/nginx/conf/nginx.conf" () "" "" [] [] []
      (Example.one "/run/nginx/conf/nginx.conf" [97])).2.2.1 none 2 (by decide)
      (by decide)).1 (by decide)⟩

/-! ## Claims on domains -/

/-- The three publish operations replace the empty domain by `default` before anything else,
so the two calls are the same call. -/
theorem publish_default_domain (env : Env)
    (n : NginxConfigFileTemplete Config Server Upstream Nginx) (first : Bool) (c : Config)
    (configType : String) (servers : List Server) (upstreams : List Upstream)
    (server : Server) (upstream : Upstream) (w : World) :
    WriteServerAndUpstream env n first c configType "" server upstream w
      = WriteServerAndUpstream env n first c configType "default" server upstream w ∧
    WriteServer env n c configType "" servers w
      = WriteServer env n c configType "default" servers w ∧
    WriteUpstream env n c "" upstreams w = WriteUpstream env n c "default" upstreams w := by
  refine ⟨?_, ?_, ?_⟩
  · simp [WriteServerAndUpstream]
  · simp [WriteServer]
  · simp [WriteUpstream]

/-- C9, the code at the failing input: `ClearByTenant` does not replace the empty domain by
`default`. Called with the empty domain it removes the whole `http` directory, and with it
the server file of domain `acme`, which the call with domain `default` leaves in place. -/
theorem ClearByTenant_empty_domain_is_not_default :
    (ClearByTenant Example.accepting Example.manager ""
      (Example.one "/run/nginx/conf/http/acme/servers.conf" [115])).1 = none ∧
    (ClearByTenant Example.accepting Example.manager ""
      (Example.one "/run/nginx/conf/http/acme/servers.conf" [115])).2.fs
        "/run/nginx/conf/http/acme/servers.conf" = none ∧
    (ClearByTenant Example.accepting Example.manager "default"
      (Example.one "/run/nginx/conf/http/acme/servers.conf" [115])).2.fs
        "/run/nginx/conf/http/acme/servers.conf" = some [115] := by
  decide

/-- C10, as stated, fails when a removal fails: the first `os.RemoveAll` of the call fails,
`ClearByTenant` returns its error, and the server file of the domain is still on disk. -/
theorem ClearByTenant_removal_failure_is_returned :
    (ClearByTenant (Example.failingAt 0) Example.manager "acme"
      (Example.one "/run/nginx/conf/http/acme/servers.conf" [115])).1
        = some (Error.mk .plain "permission denied" false) ∧
    (ClearByTenant (Example.failingAt 0) Example.manager "acme"
      (Example.one "/run/nginx/conf/http/acme/servers.conf" [115])).2.fs
        "/run/nginx/conf/http/acme/servers.conf" = some [115] := by
  decide

/-- C10, amended. Teardown: for every domain and every tree, `ClearByTenant` returns the error
of the first of its two `os.RemoveAll` calls that fails, and no error when neither does,
whether or not the subtrees were there. When neither fails, no path at or below the domain's
`http` directory and none at or below its `stream` directory is left, no other path
changes, and a second call made right after leaves the tree exactly as the first call left
it, whatever its own removals return, and returns no error unless one of them fails. -/
theorem ClearByTenant_idempotent (env : Env)
    (n : NginxConfigFileTemplete Config Server Upstream Nginx) (tenant : String) (w : World) :
    let r1 := ClearByTenant env n tenant w
    let r2 := ClearByTenant env n tenant r1.2
    r1.1 = (match env.fault w.ops with
      | some err => some err
      | none => env.fault (w.ops + 1)) ∧
    (env.fault w.ops = none → env.fault (w.ops + 1) = none →
      r1.1 = none ∧
      (∀ p, FS.under (path.Join [n.configFileDirPath, "http", tenant]) p = true →
        r1.2.fs p = none) ∧
      (∀ p, FS.under (path.Join [n.configFileDirPath, "stream", tenant]) p = true →
        r1.2.fs p = none) ∧
      (∀ p, FS.under (path.Join [n.configFileDirPath, "http", tenant]) p = false →
        FS.under (path.Join [n.configFileDirPath, "stream", tenant]) p = false →
        r1.2.fs p = w.fs p) ∧
      r2.2.fs = r1.2.fs ∧
      r2.1 = (match env.fault (w.ops + 2) with
        | some err => some err
        | none => env.fault (w.ops + 3))) := by
  intro r1 r2
  refine ⟨?_, ?_⟩
  · cases h0 : env.fault w.ops with
    | some e0 => simp [r1, ClearByTenant, os.RemoveAll, h0]
    | none =>
      cases h1 : env.fault (w.ops + 1) <;>
      simp [r1, ClearByTenant, os.RemoveAll, h0, h1]
  · intro h0 h1
    have e1 : r1 = (none, ⟨fun p =>
        if FS.under (path.Join [n.configFileDirPath, "stream", tenant]) p then none
        else if FS.under (path.Join [n.configFileDirPath, "http", tenant]) p then none
        else w.fs p, w.ops + 1 + 1, w.checks⟩) := by
      simp [r1, ClearByTenant, os.RemoveAll, h0, h1]
    refine ⟨by rw [e1], ?_, ?_, ?_, ?_, ?_⟩
    · intro p hp; rw [e1]; simp [hp]
    · intro p hp; rw [e1]; simp [hp]
    · intro p hp1 hp2; rw [e1]; simp [hp1, hp2]
    · funext p
      cases h2 : env.fault (w.ops + 2) with
      | some e2 => simp [r2, e1, ClearByTenant, os.RemoveAll, h2]
      | none =>
        cases h3 : env.fault (w.ops + 3) <;>
        simp [r2, e1, ClearByTenant, os.RemoveAll, h2, h3] <;>
        split_ifs <;> simp_all
    · cases h2 : env.fault (w.ops + 2) with
      | some e2 => simp [r2, e1, ClearByTenant, os.RemoveAll, h2]
      | none =>
        cases h3 : env.fault (w.ops + 3) <;>
        simp [r2, e1, ClearByTenant, os.RemoveAll, h2, h3]

/-- C10 amended, at a concrete input: the domain's server file is removed, and stays removed. -/
theorem ClearByTenant_idempotent_witness :
    Example.accepting.fault 0 = none ∧ Example.accepting.fault 1 = none ∧
    (ClearByTenant Example.accepting Example.manager "acme"
      (Example.one "/run/nginx/conf/http/acme/servers.conf" [115])).1 = none ∧
    (ClearByTenant Example.accepting Example.manager "acme"
      (Example.one "/run/nginx/conf/http/acme/servers.conf" [115])).2.fs
        "/run/nginx/conf/http/acme/servers.conf" = none ∧
    (ClearByTenant Example.accepting Example.manager "acme"
      (ClearByTenant Example.accepting Example.manager "acme"
        (Example.one "/run/nginx/conf/http/acme/servers.conf" [115])).2).2.fs
      = (ClearByTenant Example.accepting Example.manager "acme"
        (Example.one "/run/nginx/conf/http/acme/servers.conf" [115])).2.fs := by
  have h := (ClearByTenant_idempotent Example.accepting Example.manager "acme"
    (Example.one "/run/nginx/conf/http/acme/servers.conf" [115])).2 rfl rfl
  exact ⟨rfl, rfl, h.1, h.2.1 "/run/nginx/conf/http/acme/servers.conf" (by decide),
    h.2.2.2.2.1⟩

/-! ## Claims on rendering -/

/-- What `Template.Write` returns: it fails exactly when executing the template fails; after a
successful execution with text `R` it returns the output of the script when the script
succeeds, and otherwise the part of `R` the script left unread, which is all of `R` when
the script read nothing. -/
theorem Template_Write_cases {α : Type} (env : Env) (t : Template α) (conf : α) :
    ((t.Write env conf).2 ≠ none ↔ (t.Execute conf).2 ≠ none) ∧
    (∀ R, t.Execute conf = (R, none) → (env.cleanCmd R).err = none →
      t.Write env conf = ((env.cleanCmd R).stdout, none)) ∧
    (∀ R, t.Execute conf = (R, none) → (env.cleanCmd R).err ≠ none →
      t.Write env conf = (R.drop (env.cleanCmd R).consumed, none)) ∧
    (∀ R, t.Execute conf = (R, none) → (env.cleanCmd R).err ≠ none →
      (env.cleanCmd R).consumed = 0 → t.Write env conf = (R, none)) := by
  refine ⟨?_, ?_, ?_, ?_⟩
  · unfold Template.Write
    rcases h : t.Execute conf with ⟨R, _ | err⟩
    · simp only [ne_eq, not_true_eq_false, iff_false, not_not]
      cases (env.cleanCmd R).err <;> rfl
    · simp
  · intro R hR herr
    simp [Template.Write, hR, herr]
  · intro R hR herr
    obtain ⟨e, he⟩ := Option.ne_none_iff_exists'.mp herr
    simp [Template.Write, hR, he]
  · intro R hR herr h0
    obtain ⟨e, he⟩ := Option.ne_none_iff_exists'.mp herr
    simp [Template.Write, hR, he, h0]

/-- C11, the code at the failing input: the template renders `ab`, the script reads its input
and exits with a non-zero status, and `Template.Write` returns no error and the empty text,
not `ab`: the text was handed to the script through the buffer the result is taken from.
When the script cannot be started the text is still complete. -/
theorem Template_Write_after_failed_filter :
    Example.manager.serverTmpl.Execute ⟨[97, 98], ()⟩ = ([97, 98], none) ∧
    ((Example.filtering Example.exitOne).cleanCmd [97, 98]).err ≠ none ∧
    Example.manager.serverTmpl.Write (Example.filtering Example.exitOne) ⟨[97, 98], ()⟩
      = ([], none) ∧
    Example.manager.serverTmpl.Write (Example.filtering Example.notFound) ⟨[97, 98], ()⟩
      = ([97, 98], none) := by
  decide

/-! ## Claims on upstream pools -/

/-- The buffer built by the loop of `WriteUpstream`: what was there, then every body that
renders followed by a newline. -/
theorem WriteUpstream_loop_buffer (env : Env)
    (n : NginxConfigFileTemplete Config Server Upstream Nginx) (set : Config)
    (upstreams : List Upstream) (allBody : Bytes) :
    WriteUpstream.loop env n set upstreams allBody
      = allBody ++ newlineEach (renderedPools env n set upstreams) := by
  induction upstreams generalizing allBody with
  | nil => simp [WriteUpstream.loop, renderedPools, newlineEach]
  | cons u rest ih =>
    unfold WriteUpstream.loop renderedPools
    rcases h : n.tcpUpstreamTmpl.Write env ⟨u, set⟩ with ⟨body, _ | err⟩
    · simp only [ih, newlineEach, List.append_assoc]
    · simp only [ih]

/-- C12, as stated, fails on the buffer: two pools `u` and `v` are committed as `u`, newline,
`v`, newline, every body being followed by a newline, not as `u`, newline, `v`. -/
theorem WriteUpstream_newline_after_every_pool :
    (WriteUpstream Example.accepting Example.manager () "acme" [[117], [118]]
      Example.empty).2.fs "/run/nginx/conf/stream/acme/upstreams.conf"
        = some [117, 10, 118, 10] ∧
    (WriteUpstream Example.accepting Example.manager () "acme" [[117], [118]]
      Example.empty).2.fs "/run/nginx/conf/stream/acme/upstreams.conf"
        ≠ some ([117] ++ [10] ++ [118]) := by
  decide

/-- C12, amended. All-or-nothing replace: `WriteUpstream` makes one full commit, with
`first = true`, of one buffer holding the bodies of the pools that render, in input order,
each followed by a newline. When the file operations succeed the validator runs once, and
afterwards the file holds exactly that buffer if the validator accepts, and on a rejection
exactly its prior content if it was there and exactly that buffer if it was not. -/
theorem WriteUpstream_single_commit (env : Env)
    (n : NginxConfigFileTemplete Config Server Upstream Nginx) (set : Config)
    (tenant : String) (upstreams : List Upstream) (w : World)
    (hio : ∀ k, env.fault k = none) :
    let file := path.Join [n.configFileDirPath, "stream",
      if tenant = "" then "default" else tenant, "upstreams.conf"]
    let buffer := newlineEach (renderedPools env n set upstreams)
    let r := WriteUpstream env n set tenant upstreams w
    r.2 = (writeFile env true buffer file w).2 ∧
    r.2.checks = w.checks + 1 ∧
    (env.verdict w.checks = none → r.2.fs file = some buffer) ∧
    (∀ e, env.verdict w.checks = some e →
      (∀ P, w.fs file = some P → r.2.fs file = some P) ∧
      (w.fs file = none → r.2.fs file = some buffer)) := by
  intro file buffer r
  have hr : r.2 = (writeFile env true buffer file w).2 := by
    simp only [r, WriteUpstream, WriteUpstream_loop_buffer, List.nil_append, buffer, file]
  rw [hr]
  refine ⟨rfl, ?_, ?_, ?_⟩
  · cases hv : env.verdict w.checks with
    | none => exact (writeFile_accepted env true buffer file w hio hv).2.2.2.2
    | some e => exact (writeFile_rejected env true buffer file w e hio hv).2.2.2.2
  · intro hv
    rw [(writeFile_accepted env true buffer file w hio hv).2.1]
    cases w.fs file <;> simp [written]
  · intro e hv
    have h2 := (writeFile_rejected env true buffer file w e hio hv).2.1
    exact ⟨fun P hP => by rw [h2, hP], fun hnone => by rw [h2, hnone]⟩

/-- C12 amended, at a concrete input: a rejected commit leaves the prior content. -/
theorem WriteUpstream_single_commit_witness :
    (∀ k, Example.rejecting.fault k = none) ∧
    Example.rejecting.verdict 0 = some nginxcmd.ErrorCheck ∧
    (WriteUpstream Example.rejecting Example.manager () "acme" [[117], [], [118]]
      (Example.one "/run/nginx/conf/stream/acme/upstreams.conf" [111])).2.checks = 1 ∧
    (WriteUpstream Example.rejecting Example.manager () "acme" [[117], [], [118]]
      (Example.one "/run/nginx/conf/stream/acme/upstreams.conf" [111])).2.fs
        "/run/nginx/conf/stream/acme/upstreams.conf" = some [111] := by
  have h := WriteUpstream_single_commit Example.rejecting Example.manager () "acme"
    [[117], [], [118]] (Example.one "/run/nginx/conf/stream/acme/upstreams.conf" [111])
    (fun _ => rfl)
  exact ⟨fun _ => rfl, rfl, h.2.1, (h.2.2.2 nginxcmd.ErrorCheck rfl).1 [111] (by decide)⟩

/-! ## Claims on batches of servers -/

/-- The recorded calls are the calls of the loop: replaying them one after the other gives the
tree the loop ends with. -/
theorem WriteServer_loop_replay (env : Env)
    (n : NginxConfigFileTemplete Config Server Upstream Nginx) (c : Config) (file : String)
    (first : Bool) (servers : List Server) (w : World) :
    WriteServer.loop env n c file first servers w
      = writeFileSeq env file
          ((WriteServer.calls env n c file first servers w).map (fun x => (x.1, x.2.1))) w := by
  induction servers generalizing first w with
  | nil => simp [WriteServer.loop, WriteServer.calls, writeFileSeq]
  | cons s rest ih =>
    unfold WriteServer.loop WriteServer.calls
    rcases hr : n.serverTmpl.Write env ⟨s, c⟩ with ⟨body, _ | err⟩
    · simp only
      rcases hw : writeFile env first body file w with ⟨_ | e, w2⟩
      · simp only [List.map_cons, writeFileSeq, hw, ih]
      · simp only [List.map_cons, writeFileSeq, hw, ih]
    · simp only [ih]

/-- One call per server that renders, in input order, with the rendered body. -/
theorem WriteServer_calls_bodies (env : Env)
    (n : NginxConfigFileTemplete Config Server Upstream Nginx) (c : Config) (file : String)
    (first : Bool) (servers : List Server) (w : World) :
    (WriteServer.calls env n c file first servers w).map (fun x => x.2.1)
      = renderedServers env n c servers := by
  induction servers generalizing first w with
  | nil => simp [WriteServer.calls, renderedServers]
  | cons s rest ih =>
    unfold WriteServer.calls renderedServers
    rcases hr : n.serverTmpl.Write env ⟨s, c⟩ with ⟨body, _ | err⟩
    · simp only
      rcases hw : writeFile env first body file w with ⟨_ | e, w2⟩
      · simp only [List.map_cons, ih]
      · simp only [List.map_cons, ih]
    · simp only [ih]

/-- The flag of a call: the flag the loop starts with, as long as every earlier call returned
an error, and `false` from the first call that succeeds on. -/
theorem WriteServer_calls_flags (env : Env)
    (n : NginxConfigFileTemplete Config Server Upstream Nginx) (c : Config) (file : String)
    (first : Bool) (servers : List Server) (w : World) (i : Nat)
    (x : Bool × Bytes × Option Error)
    (hx : (WriteServer.calls env n c file first servers w)[i]? = some x) :
    x.1 = (first && ((WriteServer.calls env n c file first servers w).take i).all
      (fun y => y.2.2.isSome)) := by
  induction servers generalizing first w i with
  | nil => simp [WriteServer.calls] at hx
  | cons s rest ih =>
    unfold WriteServer.calls at hx ⊢
    rcases hr : n.serverTmpl.Write env ⟨s, c⟩ with ⟨body, _ | err⟩
    · rw [hr] at hx
      simp only at hx ⊢
      rcases hw : writeFile env first body file w with ⟨_ | e, w2⟩
      · rw [hw] at hx
        simp only at hx ⊢
        cases i with
        | zero =>
          simp only [List.getElem?_cons_zero, Option.some.injEq] at hx
          subst hx
          simp
        | succ j =>
          simp only [List.getElem?_cons_succ] at hx
          have := ih false w2 j hx
          simp [this]
      · rw [hw] at hx
        simp only at hx ⊢
        cases i with
        | zero =>
          simp only [List.getElem?_cons_zero, Option.some.injEq] at hx
          subst hx
          simp
        | succ j =>
          simp only [List.getElem?_cons_succ] at hx
          have := ih first w2 j hx
          simp [this]
    · rw [hr] at hx
      simp only at hx ⊢
      exact ih first w i hx

/-- C14, as stated, fails: the validator rejects the commit of the first server, and the call
for the second server is made with `first = true` again, so that the file ends up holding
the second body alone. -/
theorem WriteServer_second_call_replaces_after_failure :
    WriteServer.calls (Example.rejectingAt 0) Example.manager ()
      "/run/nginx/conf/http/acme/acme_servers.conf" true [[115], [116]] Example.empty
      = [(true, [115], some nginxcmd.ErrorCheck), (true, [116], none)] ∧
    (WriteServer (Example.rejectingAt 0) Example.manager () "http" "acme" [[115], [116]]
      Example.empty).2.fs "/run/nginx/conf/http/acme/acme_servers.conf" = some [116] := by
  decide

/-- C14, amended. Batch building: for a non-empty server list `WriteServer` makes one
`writeFile` call per server that renders, in input order and with the rendered body; a call
is made with `first = true` exactly when no earlier call of the batch succeeded, and with
`first = false` once one has: the flag changes after the first commit that succeeds, not
after the first entry. -/
theorem WriteServer_batch (env : Env)
    (n : NginxConfigFileTemplete Config Server Upstream Nginx) (c : Config)
    (configtype tenant : String) (servers : List Server) (w : World)
    (hne : servers ≠ []) :
    let file := path.Join [n.configFileDirPath, if configtype = "" then "http" else configtype,
      if tenant = "" then "default" else tenant,
      (if tenant = "" then "default" else tenant) ++ "_servers.conf"]
    let calls := WriteServer.calls env n c file true servers w
    (WriteServer env n c configtype tenant servers w).2
      = writeFileSeq env file (calls.map (fun x => (x.1, x.2.1))) w ∧
    calls.map (fun x => x.2.1) = renderedServers env n c servers ∧
    (∀ i x, calls[i]? = some x → x.1 = (calls.take i).all (fun y => y.2.2.isSome)) := by
  intro file calls
  refine ⟨?_, WriteServer_calls_bodies env n c file true servers w, ?_⟩
  · cases servers with
    | nil => exact absurd rfl hne
    | cons s rest =>
      simp only [WriteServer, List.length_cons, Nat.lt_one_iff, Nat.add_one_ne_zero, if_false]
      exact WriteServer_loop_replay env n c file true (s :: rest) w
  · intro i x hx
    have h := WriteServer_calls_flags env n c file true servers w i x hx
    simpa using h

/-- C14 amended, at a concrete input: the first server is rejected, the second does not
render, the third and the fourth are accepted. -/
theorem WriteServer_batch_witness :
    ([[115], [], [116], [117]] : List Bytes) ≠ [] ∧
    (WriteServer.calls (Example.rejectingAt 0) Example.manager ()
      "/run/nginx/conf/http/acme/acme_servers.conf" true [[115], [], [116], [117]]
      Example.empty).map (fun x => x.2.1) = [[115], [116], [117]] ∧
    (WriteServer.calls (Example.rejectingAt 0) Example.manager ()
      "/run/nginx/conf/http/acme/acme_servers.conf" true [[115], [], [116], [117]]
      Example.empty).map (fun x => x.1) = [true, true, false] := by
  have h := WriteServer_batch (Example.rejectingAt 0) Example.manager () "http" "acme"
    [[115], [], [116], [117]] Example.empty (by decide)
  exact ⟨by decide, h.2.1, by decide⟩

/-! ## Claims on locks -/

/-- The lock discipline of a body run under the tenant's lock, when that lock is free: the
call returns what the body returns; the mutex used is the one the table held for the tenant,
or a new one stored in the table if it held none; it is locked before the first
operating-system call of the body and unlocked after the last, on every return path; and no
entry of the table is replaced or removed. -/
theorem LockTable.during_discipline (l : LockTable) (tenant : String) (w : World)
    (body : World → Option Error × World)
    (hfree : ∀ m, l.writeLocks tenant = some m → l.locked m = false) :
    ∃ m l2, l.during tenant w body = some (body w, l2) ∧
      (l.writeLocks tenant = some m ∨ (l.writeLocks tenant = none ∧ m = l.next)) ∧
      l2.writeLocks tenant = some m ∧
      l2.events = l.events ++ [.Lock m w.ops, .Unlock m (body w).2.ops] ∧
      l2.locked m = false ∧
      (∀ t a, l.writeLocks t = some a → l2.writeLocks t = some a) := by
  cases ht : l.writeLocks tenant with
  | none =>
    refine ⟨l.next, ((l.Lock tenant w.ops).getD (0, l)).2.Unlock l.next (body w).2.ops,
      ?_, Or.inr ⟨rfl, rfl⟩, ?_, ?_, ?_, ?_⟩
    · simp [LockTable.during, LockTable.Lock, ht]
    · simp [LockTable.Lock, LockTable.Unlock, ht]
    · simp [LockTable.Lock, LockTable.Unlock, ht]
    · simp [LockTable.Lock, LockTable.Unlock, ht]
    · intro t a hta
      have hne : t ≠ tenant := by
        intro h; rw [h, ht] at hta; exact absurd hta (by simp)
      simp [LockTable.Lock, LockTable.Unlock, ht, hne, hta]
  | some m =>
    have hm := hfree m ht
    refine ⟨m, ((l.Lock tenant w.ops).getD (0, l)).2.Unlock m (body w).2.ops,
      ?_, Or.inl rfl, ?_, ?_, ?_, ?_⟩
    · simp [LockTable.during, LockTable.Lock, ht, hm]
    · simp [LockTable.Lock, LockTable.Unlock, ht, hm]
    · simp [LockTable.Lock, LockTable.Unlock, ht, hm]
    · simp [LockTable.Lock, LockTable.Unlock, ht, hm]
    · intro t a hta
      simp [LockTable.Lock, LockTable.Unlock, ht, hm, hta]

/-- The three publish operations keep the lock discipline when the tenant's lock is free:
each returns what its body returns, with the mutex of the (defaulted) tenant locked before
the first operating-system call of the body and unlocked after the last. -/
theorem publish_lock_discipline (env : Env)
    (n : NginxConfigFileTemplete Config Server Upstream Nginx) (l : LockTable) (first : Bool)
    (c : Config) (configType tenant : String) (servers : List Server)
    (upstreams : List Upstream) (server : Server) (upstream : Upstream) (w : World)
    (hfree : ∀ m, l.writeLocks (if tenant = "" then "default" else tenant) = some m →
      l.locked m = false) :
    (∃ m l2, Locked.WriteServerAndUpstream env n l first c configType tenant server upstream w
        = some (WriteServerAndUpstream env n first c configType tenant server upstream w, l2) ∧
      l2.events = l.events ++ [.Lock m w.ops, .Unlock m
        (WriteServerAndUpstream env n first c configType tenant server upstream w).2.ops]) ∧
    (∃ m l2, Locked.WriteServer env n l c configType tenant servers w
        = some (WriteServer env n c configType tenant servers w, l2) ∧
      l2.events = l.events ++ [.Lock m w.ops, .Unlock m
        (WriteServer env n c configType tenant servers w).2.ops]) ∧
    (∃ m l2, Locked.WriteUpstream env n l c tenant upstreams w
        = some (WriteUpstream env n c tenant upstreams w, l2) ∧
      l2.events = l.events ++ [.Lock m w.ops, .Unlock m
        (WriteUpstream env n c tenant upstreams w).2.ops]) := by
  refine ⟨?_, ?_, ?_⟩
  · obtain ⟨m, l2, h1, -, -, h4, -, -⟩ := LockTable.during_discipline l
      (if tenant = "" then "default" else tenant) w
      (WriteServerAndUpstream env n first c configType tenant server upstream) hfree
    exact ⟨m, l2, h1, h4⟩
  · obtain ⟨m, l2, h1, -, -, h4, -, -⟩ := LockTable.during_discipline l
      (if tenant = "" then "default" else tenant) w
      (WriteServer env n c configType tenant servers) hfree
    exact ⟨m, l2, h1, h4⟩
  · obtain ⟨m, l2, h1, -, -, h4, -, -⟩ := LockTable.during_discipline l
      (if tenant = "" then "default" else tenant) w
      (WriteUpstream env n c tenant upstreams) hfree
    exact ⟨m, l2, h1, h4⟩

/-- C13, the code at the failing input: `ClearByTenant` has no lock line. Called for domain
`acme` it makes its two operating-system calls and removes the server file of the domain
while the lock table has no entry for the domain and no `Lock` call was made; `WriteUpstream`
on the same domain makes its four operating-system calls between `Lock` and `Unlock` of the
domain's mutex. -/
theorem ClearByTenant_takes_no_lock :
    (Locked.ClearByTenant Example.accepting Example.manager Example.noLocks "acme"
      (Example.one "/run/nginx/conf/http/acme/servers.conf" [115])).map
        (fun x => (x.1.2.ops, x.1.2.fs "/run/nginx/conf/http/acme/servers.conf"))
      = some (2, none) ∧
    (Locked.ClearByTenant Example.accepting Example.manager Example.noLocks "acme"
      (Example.one "/run/nginx/conf/http/acme/servers.conf" [115])).map
        (fun x => (x.2.events, x.2.writeLocks "acme")) = some ([], none) ∧
    (Locked.WriteUpstream Example.accepting Example.manager Example.noLocks () "acme" [[117]]
      (Example.one "/run/nginx/conf/http/acme/servers.conf" [115])).map
        (fun x => (x.2.events, x.2.writeLocks "acme"))
      = some ([.Lock 0 0, .Unlock 0 4], some 0) := by
  decide

end Claims

end Rainbond
